import Mathlib

/-!
Verification of the gaas-gateway core against its source (`src/main.py`,
`src/app/bot_detector.py`, `src/app/models.py`).

The development shallowly embeds the Python code:
* machine arithmetic on 32-bit words is `Nat` with explicit `% 2 ^ 32`;
* `hashlib.sha256(...).hexdigest()` is a full SHA-256 implementation over
  byte lists producing lowercase hexadecimal strings;
* SQLAlchemy tables are Lean lists of row structures; a query with
  `ORDER BY timestamp ASC` is a stable sort of the storage enumeration
  (SQL leaves the relative order of equal keys unspecified, so the list
  models whatever enumeration the engine produces);
* Python floats are embedded as rationals (`ℚ`);
* `datetime` values are embedded as rationals; `isoformat()` is `toString`;
* fallible code returns `Option` / `Except`.
-/

/-! ## Bytes, hex, SHA-256 (model of `hashlib.sha256(...).hexdigest()`) -/

/-- 32-bit modulus used throughout SHA-256. -/
def w32 : Nat := 4294967296

/-- Right rotation of a 32-bit word. -/
def rotr32 (x n : Nat) : Nat := ((x >>> n) ||| (x <<< (32 - n))) % w32

/-- SHA-256 round constants. -/
def sha256K : List Nat :=
  [1116352408, 1899447441, 3049323471, 3921009573, 961987163, 1508970993,
   2453635748, 2870763221, 3624381080, 310598401, 607225278, 1426881987,
   1925078388, 2162078206, 2614888103, 3248222580, 3835390401, 4022224774,
   264347078, 604807628, 770255983, 1249150122, 1555081692, 1996064986,
   2554220882, 2821834349, 2952996808, 3210313671, 3336571891, 3584528711,
   113926993, 338241895, 666307205, 773529912, 1294757372, 1396182291,
   1695183700, 1986661051, 2177026350, 2456956037, 2730485921, 2820302411,
   3259730800, 3345764771, 3516065817, 3600352804, 4094571909, 275423344,
   430227734, 506948616, 659060556, 883997877, 958139571, 1322822218,
   1537002063, 1747873779, 1955562222, 2024104815, 2227730452, 2361852424,
   2428436474, 2756734187, 3204031479, 3329325298]

/-- SHA-256 initial hash state. -/
def sha256Init : List Nat :=
  [1779033703, 3144134277, 1013904242, 2773480762,
   1359893119, 2600822924, 528734635, 1541459225]

/-- Big-endian 8-byte encoding of the (64-bit) message bit length. -/
def beBytes8 (n : Nat) : List Nat :=
  [(n >>> 56) % 256, (n >>> 48) % 256, (n >>> 40) % 256, (n >>> 32) % 256,
   (n >>> 24) % 256, (n >>> 16) % 256, (n >>> 8) % 256, n % 256]

/-- SHA-256 padding: append `0x80`, zero bytes up to 56 mod 64, then the bit length. -/
def sha256Pad (msg : List Nat) : List Nat :=
  let len := msg.length
  let padZeros := (55 - len % 64 + 64) % 64
  msg ++ [0x80] ++ List.replicate padZeros 0 ++ beBytes8 (len * 8)

/-- Group bytes into big-endian 32-bit words. -/
def bytesToWords : List Nat → List Nat
  | a :: b :: c :: d :: rest => (a * 16777216 + b * 65536 + c * 256 + d) :: bytesToWords rest
  | _ => []

/-- SHA-256 message schedule: extend 16 words to 64. -/
def sha256Schedule (ws0 : List Nat) : List Nat :=
  (List.range 48).foldl
    (fun ws i =>
      let x15 := ws.getD (i + 1) 0
      let x2 := ws.getD (i + 14) 0
      let s0 := (rotr32 x15 7) ^^^ (rotr32 x15 18) ^^^ (x15 >>> 3)
      let s1 := (rotr32 x2 17) ^^^ (rotr32 x2 19) ^^^ (x2 >>> 10)
      ws ++ [(ws.getD i 0 + s0 + ws.getD (i + 9) 0 + s1) % w32])
    ws0

/-- One SHA-256 compression round. -/
def sha256Round (ws : List Nat) (regs : List Nat) (i : Nat) : List Nat :=
  let a := regs.getD 0 0
  let b := regs.getD 1 0
  let c := regs.getD 2 0
  let d := regs.getD 3 0
  let e := regs.getD 4 0
  let f := regs.getD 5 0
  let g := regs.getD 6 0
  let h := regs.getD 7 0
  let S1 := (rotr32 e 6) ^^^ (rotr32 e 11) ^^^ (rotr32 e 25)
  let ch := (e &&& f) ^^^ ((e ^^^ (w32 - 1)) &&& g)
  let t1 := (h + S1 + ch + sha256K.getD i 0 + ws.getD i 0) % w32
  let S0 := (rotr32 a 2) ^^^ (rotr32 a 13) ^^^ (rotr32 a 22)
  let maj := (a &&& b) ^^^ (a &&& c) ^^^ (b &&& c)
  let t2 := (S0 + maj) % w32
  [(t1 + t2) % w32, a, b, c, (d + t1) % w32, e, f, g]

/-- Compress one 64-byte block into the running state. -/
def sha256Compress (st : List Nat) (block : List Nat) : List Nat :=
  let ws := sha256Schedule (bytesToWords block)
  let regs := (List.range 64).foldl (sha256Round ws) st
  List.zipWith (fun x y => (x + y) % w32) st regs

/-- Process the padded message 64 bytes at a time (fuel bounds the block count). -/
def sha256Loop : Nat → List Nat → List Nat → List Nat
  | 0, st, _ => st
  | _ + 1, st, [] => st
  | fuel + 1, st, bytes => sha256Loop fuel (sha256Compress st (bytes.take 64)) (bytes.drop 64)

/-- Serialize 32-bit words to big-endian bytes. -/
def wordsToBytes : List Nat → List Nat
  | [] => []
  | w :: rest => (w >>> 24) % 256 :: (w >>> 16) % 256 :: (w >>> 8) % 256 :: w % 256 :: wordsToBytes rest

/-- SHA-256 of a byte list. -/
def sha256 (msg : List Nat) : List Nat :=
  let padded := sha256Pad msg
  wordsToBytes (sha256Loop (padded.length) sha256Init padded)

/-- Lowercase hexadecimal digit. -/
def hexDigit (n : Nat) : Char := if n < 10 then Char.ofNat (48 + n) else Char.ofNat (87 + n)

/-- Lowercase hexadecimal rendering of a byte list. -/
def bytesToHex : List Nat → List Char
  | [] => []
  | b :: rest => hexDigit (b / 16) :: hexDigit (b % 16) :: bytesToHex rest

/-- UTF-8 bytes of a string. -/
def strBytes (s : String) : List Nat := s.toUTF8.toList.map (fun b => b.toNat)

/-- Model of Python's `hashlib.sha256(s.encode()).hexdigest()`. -/
def sha256sHex (s : String) : String := String.mk (bytesToHex (sha256 (strBytes s)))

/-! ## Merkle tree (model of `build_merkle_tree`, src/main.py lines 178-212)

One level of the while-loop: pair adjacent hashes `(left, right)`; when the
level has odd length the trailing element is combined with itself
(`right = current_level[i + 1] if i + 1 < len(current_level) else left`);
`parent = hashlib.sha256((left + right).encode()).hexdigest()`. -/

def merkleLevel : List String → List String
  | [] => []
  | [l] => [sha256sHex (l ++ l)]
  | l :: r :: rest => sha256sHex (l ++ r) :: merkleLevel rest

/-- The `while len(current_level) > 1` loop; the fuel (initial list length)
strictly dominates the number of halving iterations. -/
def merkleBuildLoop : Nat → List String → List String
  | 0, cur => cur
  | fuel + 1, cur => if cur.length ≤ 1 then cur else merkleBuildLoop fuel (merkleLevel cur)

/-- Model of `build_merkle_tree`: empty input gives `""`, a singleton gives
that hash, otherwise the levels are iterated until one hash remains. -/
def build_merkle_tree (hashes : List String) : String :=
  match hashes with
  | [] => ""
  | [h] => h
  | hs => (merkleBuildLoop hs.length hs).headD ""

/-! ## Base64 (model of Python's `base64.b64encode` / `base64.b64decode`)

Bytes are `Nat` values below 256; the encoded form is a list of characters
from the standard alphabet with `=` padding. -/

/-- Standard base64 alphabet, index to character. -/
def b64EncChar (n : Nat) : Char :=
  if n < 26 then Char.ofNat (65 + n)
  else if n < 52 then Char.ofNat (97 + (n - 26))
  else if n < 62 then Char.ofNat (48 + (n - 52))
  else if n = 62 then '+' else '/'

/-- Standard base64 alphabet, character to index. -/
def b64DecChar (c : Char) : Option Nat :=
  let v := c.toNat
  if 65 ≤ v ∧ v ≤ 90 then some (v - 65)
  else if 97 ≤ v ∧ v ≤ 122 then some (v - 97 + 26)
  else if 48 ≤ v ∧ v ≤ 57 then some (v - 48 + 52)
  else if v = 43 then some 62
  else if v = 47 then some 63
  else none

/-- Base64-encode a byte list, three bytes to four characters, `=`-padded. -/
def b64encode : List Nat → List Char
  | [] => []
  | [a] => [b64EncChar (a / 4), b64EncChar (a % 4 * 16), '=', '=']
  | [a, b] => [b64EncChar (a / 4), b64EncChar (a % 4 * 16 + b / 16), b64EncChar (b % 16 * 4), '=']
  | a :: b :: c :: rest =>
    b64EncChar (a / 4) :: b64EncChar (a % 4 * 16 + b / 16) ::
    b64EncChar (b % 16 * 4 + c / 64) :: b64EncChar (c % 64) :: b64encode rest

/-- Base64-decode four characters at a time; `=` padding is accepted only at
the very end of the input, as Python's strict decoder requires. -/
def b64decode : List Char → Option (List Nat)
  | [] => some []
  | c1 :: c2 :: c3 :: c4 :: rest =>
    if c3 = '=' then
      if c4 = '=' ∧ rest = [] then
        match b64DecChar c1, b64DecChar c2 with
        | some n1, some n2 => some [n1 * 4 + n2 / 16]
        | _, _ => none
      else none
    else if c4 = '=' then
      if rest = [] then
        match b64DecChar c1, b64DecChar c2, b64DecChar c3 with
        | some n1, some n2, some n3 => some [n1 * 4 + n2 / 16, n2 % 16 * 16 + n3 / 4]
        | _, _, _ => none
      else none
    else
      match b64DecChar c1, b64DecChar c2, b64DecChar c3, b64DecChar c4, b64decode rest with
      | some n1, some n2, some n3, some n4, some bs =>
        some ((n1 * 4 + n2 / 16) :: (n2 % 16 * 16 + n3 / 4) :: (n3 % 4 * 64 + n4) :: bs)
      | _, _, _, _, _ => none
  | _ => none

/-! ## Watermarking (model of src/main.py lines 42-140)

String fields travel as UTF-8 byte lists; the pipe separator is byte 124.
Database identifiers are naturals rendered in decimal, exactly as Python's
f-string renders the integer primary keys. -/

/-- Decimal ASCII rendering of a natural (`str(n)` on a nonnegative int). -/
def natToDecBytes (n : Nat) : List Nat :=
  if n = 0 then [48] else (Nat.digits 10 n).reverse.map (· + 48)

/-- Parse a byte list of ASCII digits (`int(s)` restricted to the decimal
renderings the gateway produces); `none` on empty or non-digit input. -/
def parseNatBytes (l : List Nat) : Option Nat :=
  if l ≠ [] ∧ l.all (fun d => 48 ≤ d && d ≤ 57) then
    some (l.foldl (fun acc d => acc * 10 + (d - 48)) 0)
  else none

/-- Split a byte list on the pipe byte 124 (`decoded.split("|")`). -/
def splitPipe : List Nat → List (List Nat)
  | [] => [[]]
  | b :: rest =>
    if b = 124 then [] :: splitPipe rest
    else
      match splitPipe rest with
      | [] => [[b]]
      | p :: ps => (b :: p) :: ps

/-- The decoded watermark tuple (`service_id`, `api_key_id`, `request_id`,
`timestamp`), string fields as UTF-8 byte lists. -/
structure WatermarkData where
  service_id : Nat
  api_key_id : Nat
  request_id : List Nat
  timestamp : List Nat
deriving DecidableEq, Repr

/-- Model of `generate_watermark`: base64 of
`f"{service_id}|{api_key_id}|{request_id}|{timestamp}"`. -/
def generate_watermark (service_id api_key_id : Nat) (request_id timestamp : List Nat) : List Char :=
  b64encode (natToDecBytes service_id ++ 124 :: natToDecBytes api_key_id ++
    124 :: request_id ++ 124 :: timestamp)

/-- Model of `decode_watermark`: base64-decode, split on `|`, require exactly
four parts with integer ids. -/
def decode_watermark (encoded : List Char) : Option WatermarkData :=
  match b64decode encoded with
  | none => none
  | some bytes =>
    match splitPipe bytes with
    | [p0, p1, p2, p3] =>
      match parseNatBytes p0, parseNatBytes p1 with
      | some s, some k => some ⟨s, k, p2, p3⟩
      | _, _ => none
    | _ => none

/-- JSON values, as produced by `json.loads`: strings are character lists,
objects keep their member order (Python dicts preserve insertion order). -/
inductive Json where
  | null : Json
  | bool : Bool → Json
  | num : Int → Json
  | str : List Char → Json
  | arr : List Json → Json
  | obj : List (List Char × Json) → Json

/-- The literal member name `_gaas_watermark`. -/
def wmKey : List Char := "_gaas_watermark".toList

/-- Python dict assignment `data[k] = v`: replace in place if the key exists,
else append. -/
def setKey : List (List Char × Json) → List Char → Json → List (List Char × Json)
  | [], k, v => [(k, v)]
  | (k', v') :: rest, k, v =>
    if k' = k then (k, v) :: rest else (k', v') :: setKey rest k v

/-- Python dict lookup (first binding for the key). -/
def getKey : List (List Char × Json) → List Char → Option Json
  | [], _ => none
  | (k', v') :: rest, k => if k' = k then some v' else getKey rest k

/-- Model of `inject_watermark_json`: objects gain the `_gaas_watermark`
member; arrays are wrapped as `{"data": ..., "_gaas_watermark": ...}`; other
values are returned unchanged. -/
def inject_watermark_json (data : Json) (watermark : List Char) : Json :=
  match data with
  | .obj fields => .obj (setKey fields wmKey (.str watermark))
  | .arr xs => .obj [("data".toList, .arr xs), (wmKey, .str watermark)]
  | other => other

/-- Python truthiness of a JSON value (`if result:`). -/
def jsonTruthy : Json → Bool
  | .null => false
  | .bool b => b
  | .num n => n != 0
  | .str s => !s.isEmpty
  | .arr xs => !xs.isEmpty
  | .obj fs => !fs.isEmpty

mutual

/-- Model of `extract_watermark_from_json`: a dict containing the key returns
its value at once; otherwise the values (resp. array items) are searched
recursively, and a falsy recursive result is skipped. -/
def extract_watermark_from_json : Json → Option Json
  | .obj fs =>
    match getKey fs wmKey with
    | some v => some v
    | none => extractFromFields fs
  | .arr xs => extractFromItems xs
  | _ => none

/-- Search the values of a dict (`for value in data.values()`). -/
def extractFromFields : List (List Char × Json) → Option Json
  | [] => none
  | (_, x) :: rest =>
    match extract_watermark_from_json x with
    | some v => if jsonTruthy v then some v else extractFromFields rest
    | none => extractFromFields rest

/-- Search the items of a list (`for item in data`). -/
def extractFromItems : List Json → Option Json
  | [] => none
  | x :: rest =>
    match extract_watermark_from_json x with
    | some v => if jsonTruthy v then some v else extractFromItems rest
    | none => extractFromItems rest

end

/-! ## Text watermarking (model of `inject_watermark_text` /
`extract_watermark_from_text`, src/main.py lines 89-150)

Text is a character list.  The two extraction regexes
`<!--\s*GAAS_WM:([A-Za-z0-9+/=]+)\s*-->` and `\[GAAS_WM:([A-Za-z0-9+/=]+)\]`
contain only literals and the classes `\s` / base64; both classes are
disjoint from the literals that follow them, so greedy matching without
backtracking coincides with Python's `re.search` (leftmost match).  `\s` is
modelled by its ASCII members, the only ones the gateway ever emits. -/

/-- Membership in the regex class `[A-Za-z0-9+/=]`. -/
def isB64Char (c : Char) : Bool :=
  ('A' ≤ c && c ≤ 'Z') || ('a' ≤ c && c ≤ 'z') || ('0' ≤ c && c ≤ '9') ||
  c == '+' || c == '/' || c == '='

/-- ASCII members of the regex class `\s`. -/
def isWsChar (c : Char) : Bool :=
  c == ' ' || c == '\t' || c == '\n' || c == '\r' || c == '\x0b' || c == '\x0c'

/-- The literal `GAAS_WM:` that both markers carry. -/
def gaasTag : List Char := "GAAS_WM:".toList

/-- Boolean prefix test on character lists. -/
def isPrefixOfChars : List Char → List Char → Bool
  | [], _ => true
  | _ :: _, [] => false
  | p :: ps, c :: cs => p == c && isPrefixOfChars ps cs

/-- Boolean substring test (`needle in haystack` on Python strings). -/
def isSubstrOfChars (p : List Char) : List Char → Bool
  | [] => p.isEmpty
  | l@(_ :: rest) => isPrefixOfChars p l || isSubstrOfChars p rest

/-- Character-list lowering (`str.lower()` restricted to ASCII). -/
def lowerChars (l : List Char) : List Char := l.map Char.toLower

/-- Model of `inject_watermark_text`: when `"html" in content_type.lower()`
the body gains a trailing HTML-comment marker, any other text a bracketed
suffix. -/
def inject_watermark_text (text watermark contentType : List Char) : List Char :=
  if isSubstrOfChars ("html".toList) (lowerChars contentType) then
    text ++ "\n<!-- GAAS_WM:".toList ++ watermark ++ " -->".toList
  else
    text ++ "\n[GAAS_WM:".toList ++ watermark ++ "]".toList

/-- Drop `p` from the front of `l` when it is a prefix, else `none`. -/
def dropPrefixChars : List Char → List Char → Option (List Char)
  | [], l => some l
  | _ :: _, [] => none
  | p :: ps, c :: cs => if p = c then dropPrefixChars ps cs else none

/-- Attempt the HTML-comment pattern at the head of `l`; on success return
the captured base64 group. -/
def matchHtmlAt (l : List Char) : Option (List Char) :=
  match dropPrefixChars ("<!--".toList) l with
  | none => none
  | some l1 =>
    let l2 := l1.dropWhile isWsChar
    match dropPrefixChars gaasTag l2 with
    | none => none
    | some l3 =>
      let cap := l3.takeWhile isB64Char
      if cap.isEmpty then none
      else
        let l4 := (l3.dropWhile isB64Char).dropWhile isWsChar
        match dropPrefixChars ("-->".toList) l4 with
        | some _ => some cap
        | none => none

/-- Attempt the bracket pattern at the head of `l`. -/
def matchBracketAt (l : List Char) : Option (List Char) :=
  match dropPrefixChars ("[GAAS_WM:".toList) l with
  | none => none
  | some l1 =>
    let cap := l1.takeWhile isB64Char
    if cap.isEmpty then none
    else
      match dropPrefixChars ("]".toList) (l1.dropWhile isB64Char) with
      | some _ => some cap
      | none => none

/-- `re.search` for the HTML pattern: try every position left to right. -/
def searchHtml : List Char → Option (List Char)
  | [] => none
  | l@(_ :: rest) =>
    match matchHtmlAt l with
    | some cap => some cap
    | none => searchHtml rest

/-- `re.search` for the bracket pattern. -/
def searchBracket : List Char → Option (List Char)
  | [] => none
  | l@(_ :: rest) =>
    match matchBracketAt l with
    | some cap => some cap
    | none => searchBracket rest

/-- Model of `extract_watermark_from_text`: the HTML-comment pattern is tried
first, then the bracket pattern. -/
def extract_watermark_from_text (text : List Char) : Option (List Char) :=
  match searchHtml text with
  | some cap => some cap
  | none => searchBracket text

/-! ## Database rows (model of `src/app/models.py`) -/

/-- `users` row. -/
structure UserRow where
  id : Nat
  name : String
  api_key : String
deriving DecidableEq, Repr

/-- `services` row. -/
structure ServiceRow where
  id : Nat
  name : String
  target_url : String
  owner_id : Nat
  watermarking_enabled : Bool
deriving DecidableEq, Repr

/-- `api_keys` row. -/
structure ApiKeyRow where
  id : Nat
  key : String
  service_id : Nat
  is_active : Bool
  rate_limit_requests : Option Nat
  rate_limit_window_seconds : Option Nat
  price_per_request : ℚ
  total_cost : ℚ
deriving DecidableEq, Repr

/-- `usage_logs` row. -/
structure UsageLogRow where
  id : Nat
  service_id : Nat
  api_key : String
  timestamp : ℚ
deriving DecidableEq, Repr

/-- `service_configs` row. -/
structure ServiceConfigRow where
  id : Nat
  service_id : Nat
  block_bots_enabled : Bool
  bot_threshold : ℚ
deriving DecidableEq, Repr

/-- `bot_detection_logs` row. -/
structure BotLogRow where
  service_id : Nat
  api_key : String
  bot_score : ℚ
  classification : String
  user_agent : String
  action_taken : String
deriving DecidableEq, Repr

/-- `request_hashes` row. -/
structure RequestHashRow where
  id : Nat
  service_id : Nat
  api_key_id : Nat
  timestamp : ℚ
  request_path : String
  response_status : Nat
  hash : String
  merkle_batch_id : Option Nat
deriving DecidableEq, Repr

/-- `merkle_roots` row (anchoring metadata omitted: the anchoring collaborator
is outside the verified core). -/
structure MerkleRootRow where
  id : Nat
  merkle_root : String
  start_time : ℚ
  end_time : ℚ
  request_count : Nat
deriving DecidableEq, Repr

/-- The transactional store.  Each list is one table in its storage
enumeration order; primary keys are unique in any state the gateway
produces. -/
structure Db where
  users : List UserRow
  services : List ServiceRow
  apiKeys : List ApiKeyRow
  usageLogs : List UsageLogRow
  serviceConfigs : List ServiceConfigRow
  botLogs : List BotLogRow
  requestHashes : List RequestHashRow
  merkleRoots : List MerkleRootRow
deriving Repr

/-! ## Key directory (model of `get_current_user`, src/main.py lines 431-468,
`validate_api_key_for_service`, lines 541-582, and
`revoke_service_api_key`, lines 1301-1336) -/

/-- `db.query(ApiKey).filter(ApiKey.key == k, ApiKey.is_active == True).first()`. -/
def findActiveApiKey (db : Db) (k : String) : Option ApiKeyRow :=
  db.apiKeys.find? (fun a => a.key == k && a.is_active)

/-- Model of `get_current_user`: the `ApiKey` table is consulted first; on
any miss along that path the user-level `User.api_key` fallback applies;
a final miss is HTTP 401. -/
def get_current_user (db : Db) (x_api_key : Option String) : Except Nat UserRow :=
  match x_api_key with
  | none => .error 401
  | some k =>
    let viaServiceKey : Option UserRow :=
      match findActiveApiKey db k with
      | some a =>
        match db.services.find? (fun s => s.id == a.service_id) with
        | some s => db.users.find? (fun u => u.id == s.owner_id)
        | none => none
      | none => none
    match viaServiceKey with
    | some u => .ok u
    | none =>
      match db.users.find? (fun u => u.api_key == k) with
      | some u => .ok u
      | none => .error 401

/-- Model of `validate_api_key_for_service`. -/
def validate_api_key_for_service (api_key : String) (service_id : Nat) (db : Db) : Bool :=
  match findActiveApiKey db api_key with
  | none =>
    match db.users.find? (fun u => u.api_key == api_key) with
    | some u =>
      match db.services.find? (fun s => s.id == service_id) with
      | some s => s.owner_id == u.id
      | none => false
    | none => false
  | some a => a.service_id == service_id

/-- Model of `revoke_service_api_key`: 404 when the service or the
(key id, service id) pair is unknown, else `is_active := false`. -/
def revoke_service_api_key (db : Db) (service_id key_id : Nat) : Except Nat Db :=
  match db.services.find? (fun s => s.id == service_id) with
  | none => .error 404
  | some _ =>
    match db.apiKeys.find? (fun a => a.id == key_id && a.service_id == service_id) with
    | none => .error 404
    | some _ =>
      .ok { db with
        apiKeys := db.apiKeys.map (fun a =>
          if a.id == key_id && a.service_id == service_id then
            { a with is_active := false }
          else a) }

/-! ## Token-bucket limiter (model of `check_rate_limit`, src/main.py
lines 483-538)

`time.time()` instants and token counts are rationals.  A bucket lives in
`_rate_limit_store` under the composite key `f"{api_key}:{capacity}:{window}"`,
modelled as the tuple `(api_key, capacity, window)`. -/

/-- One bucket of `_rate_limit_store`. -/
structure Bucket where
  tokens : ℚ
  last_refill : ℚ
  capacity : Nat
  refill_rate : ℚ
deriving DecidableEq, Repr

/-- A freshly initialised bucket (`bucket['tokens'] = float(capacity)` ...). -/
def initBucket (capacity : Nat) (refill_rate now : ℚ) : Bucket :=
  ⟨(capacity : ℚ), now, capacity, refill_rate⟩

/-- The take-one protocol on a single bucket: (re)initialise when absent or
when the capacity changed, refill to `min(capacity, tokens + elapsed * rate)`,
then admit iff at least one token is available. -/
def takeOne (stored : Option Bucket) (capacity : Nat) (refill_rate now : ℚ) : Bool × Bucket :=
  let b :=
    match stored with
    | none => initBucket capacity refill_rate now
    | some b => if b.capacity ≠ capacity then initBucket capacity refill_rate now else b
  let elapsed := now - b.last_refill
  let tokens' := min (capacity : ℚ) (b.tokens + elapsed * b.refill_rate)
  if 1 ≤ tokens' then (true, ⟨tokens' - 1, now, b.capacity, b.refill_rate⟩)
  else (false, ⟨tokens', now, b.capacity, b.refill_rate⟩)

/-- The bucket map keyed by `(api_key, capacity, window)`. -/
def RateStore : Type := List ((String × Nat × ℚ) × Bucket)

/-- Map lookup. -/
def storeLookup (st : RateStore) (k : String × Nat × ℚ) : Option Bucket :=
  match st.find? (fun e => e.1 == k) with
  | some e => some e.2
  | none => none

/-- Map update (replace or insert). -/
def storeInsert (st : RateStore) (k : String × Nat × ℚ) (b : Bucket) : RateStore :=
  match st with
  | [] => [(k, b)]
  | e :: rest => if e.1 == k then (k, b) :: rest else e :: storeInsert rest k b

/-- Effective limits: the per-key override applies only when both fields are
set on an active key row; otherwise the global default 10 per 60 s. -/
def resolveRateConfig (db : Db) (api_key : String) : Nat × ℚ :=
  match findActiveApiKey db api_key with
  | some a =>
    match a.rate_limit_requests, a.rate_limit_window_seconds with
    | some r, some w => (r, (w : ℚ))
    | _, _ => (10, 60)
  | none => (10, 60)

/-- Model of `check_rate_limit`: resolve limits, locate the bucket under the
composite key, run the take-one protocol, store the new bucket. -/
def check_rate_limit (db : Db) (st : RateStore) (api_key : String) (now : ℚ) :
    Bool × RateStore :=
  let (capacity, window) := resolveRateConfig db api_key
  let refill_rate := (capacity : ℚ) / window
  let bkey := (api_key, capacity, window)
  let (allowed, b') := takeOne (storeLookup st bkey) capacity refill_rate now
  (allowed, storeInsert st bkey b')

/-! ## Bot detector (model of `src/app/bot_detector.py`)

The regex patterns in `BOT_USER_AGENT_PATTERNS` and the browser patterns are
all literal strings, so `re.search` on them is a substring test on the
lowercased user agent. -/

/-- `BOT_USER_AGENT_PATTERNS`. -/
def BOT_USER_AGENT_PATTERNS : List String :=
  ["bot", "crawler", "spider", "scraper", "curl", "wget", "python-requests",
   "python-urllib", "scrapy", "headless", "phantomjs", "selenium", "puppeteer",
   "playwright", "axios", "go-http-client", "java", "okhttp", "apache-httpclient"]

/-- Browser tokens checked by `analyze_user_agent`. -/
def BROWSER_PATTERNS : List String :=
  ["mozilla", "chrome", "safari", "firefox", "edge", "opera"]

/-- `EXPECTED_BROWSER_HEADERS`. -/
def EXPECTED_BROWSER_HEADERS : List String :=
  ["accept", "accept-language", "accept-encoding", "user-agent", "referer"]

/-- Model of `analyze_user_agent`. -/
def analyze_user_agent (user_agent : String) : ℚ :=
  if user_agent = "" then 0.8
  else
    let lower := lowerChars user_agent.toList
    if BOT_USER_AGENT_PATTERNS.any (fun p => isSubstrOfChars p.toList lower) then 0.9
    else if user_agent.length < 20 then 0.7
    else if BROWSER_PATTERNS.any (fun p => isSubstrOfChars p.toList lower) then 0.1
    else 0.5

/-- Model of `analyze_request_rate`, abstracted over the count of `UsageLog`
rows for the key in the last 60 seconds. -/
def analyze_request_rate_of_count (recent_requests : Nat) : ℚ :=
  if recent_requests ≤ 5 then 0.0
  else if recent_requests ≤ 10 then 0.3
  else if recent_requests ≤ 20 then 0.6
  else 0.9

/-- The `UsageLog` count behind `analyze_request_rate`: rows for this key
with `timestamp >= now - 60`. -/
def recentUsageCount (db : Db) (api_key : String) (now : ℚ) : Nat :=
  (db.usageLogs.filter (fun l => l.api_key == api_key && decide (now - 60 ≤ l.timestamp))).length

/-- Model of `analyze_header_entropy`, over the request's header names
(already unique, as `dict(request.headers)` deduplicates). -/
def analyze_header_entropy (headerKeys : List String) : ℚ :=
  let keysLower := headerKeys.map (fun k => String.mk (lowerChars k.toList))
  let present := (EXPECTED_BROWSER_HEADERS.filter (fun h => keysLower.contains h)).length
  let completeness : ℚ := (present : ℚ) / (EXPECTED_BROWSER_HEADERS.length : ℚ)
  let entropy_score := 1 - completeness
  if headerKeys.length < 5 then min 1 (entropy_score + 0.3) else entropy_score

/-- Model of `calculate_bot_score` over the three request signals. -/
def calculate_bot_score (user_agent : String) (headerKeys : List String)
    (recentCount : Nat) : ℚ :=
  let ua_score := analyze_user_agent user_agent
  let rate_score := analyze_request_rate_of_count recentCount
  let header_score := analyze_header_entropy headerKeys
  min 1 (max 0 (ua_score * 0.5 + rate_score * 0.3 + header_score * 0.2))

/-- Model of `classify_traffic`. -/
def classify_traffic (bot_score : ℚ) : String :=
  if bot_score < 0.3 then "human"
  else if bot_score < 0.7 then "suspicious"
  else "bot"

/-- Model of `should_block`. -/
def should_block (bot_score : ℚ) (block_enabled : Bool) (threshold : ℚ) :
    Bool × String :=
  let classification := classify_traffic bot_score
  if ¬ block_enabled then
    if classification = "bot" then (false, "flagged") else (false, "allowed")
  else if threshold ≤ bot_score then (true, "blocked")
  else if classification = "suspicious" then (false, "flagged")
  else (false, "allowed")

/-! ## Merkle batching (model of `compute_and_store_merkle_root`,
src/main.py lines 215-261)

The source query is
`filter(RequestHash.merkle_batch_id == None).order_by(RequestHash.timestamp.asc()).limit(MERKLE_BATCH_SIZE)`:
it orders by timestamp only.  The sort below is stable over the table's
storage enumeration, which is all the SQL guarantees (rows that tie on the
timestamp come back in whatever order the engine stores them). -/

/-- Stable insertion into a timestamp-sorted list: the new row goes after
every row whose timestamp is not greater. -/
def insertByTimestamp (r : RequestHashRow) : List RequestHashRow → List RequestHashRow
  | [] => [r]
  | x :: xs =>
    if x.timestamp ≤ r.timestamp then x :: insertByTimestamp r xs else r :: x :: xs

/-- Stable sort by timestamp (`ORDER BY timestamp ASC`). -/
def sortByTimestamp (l : List RequestHashRow) : List RequestHashRow :=
  l.foldl (fun acc r => insertByTimestamp r acc) []

/-- The rows the batching query returns, in query order. -/
def selectUnbatched (batchSize : Nat) (table : List RequestHashRow) : List RequestHashRow :=
  (sortByTimestamp (table.filter (fun r => r.merkle_batch_id == none))).take batchSize

/-- Model of `compute_and_store_merkle_root` on the `request_hashes` table:
returns the created `MerkleRoot` row (or `none`) and the updated table.
`newId` is the id the database assigns to the new `merkle_roots` row. -/
def compute_and_store_merkle_root (batchSize newId : Nat) (table : List RequestHashRow) :
    Option MerkleRootRow × List RequestHashRow :=
  let sel := selectUnbatched batchSize table
  if sel.length < batchSize then (none, table)
  else
    let root := build_merkle_tree (sel.map (fun r => r.hash))
    let start_time := match sel with | r :: _ => r.timestamp | [] => 0
    let end_time := match sel.getLast? with | some r => r.timestamp | none => 0
    let record : MerkleRootRow := ⟨newId, root, start_time, end_time, sel.length⟩
    (some record,
     table.map (fun r =>
       if sel.any (fun s => s.id == r.id) then { r with merkle_batch_id := some newId }
       else r))

/-! ## Proxy engine (model of `proxy_request` and `proxy_get`,
src/main.py lines 630-921) -/

/-- What the upstream dispatch produced: a response with a status code, or
one of the `httpx` exceptions the handler distinguishes. -/
inductive Upstream where
  | response : Nat → Upstream
  | timeout : Upstream
  | connectError : Upstream
  | requestError : Upstream
deriving DecidableEq, Repr

/-- Model of `compute_request_hash`: SHA-256 of
`f"{service_id}|{api_key_id}|{timestamp.isoformat()}|{request_path}|{response_status}"`
(the timestamp rendering is the rational's `toString`). -/
def compute_request_hash (service_id api_key_id : Nat) (timestamp : ℚ)
    (request_path : String) (response_status : Nat) : String :=
  sha256sHex (toString service_id ++ "|" ++ toString api_key_id ++ "|" ++
    toString timestamp ++ "|" ++ request_path ++ "|" ++ toString response_status)

/-- Next autoincrement id of `request_hashes`. -/
def nextRequestHashId (db : Db) : Nat :=
  (db.requestHashes.map (fun r => r.id)).foldl max 0 + 1

/-- Next autoincrement id of `merkle_roots`. -/
def nextMerkleRootId (db : Db) : Nat :=
  (db.merkleRoots.map (fun r => r.id)).foldl max 0 + 1

/-- An incoming request as the data plane sees it: target service, header
map (names lowercased, as Starlette exposes them) and path. -/
structure PReq where
  serviceId : Nat
  headers : List (String × String)
  path : String
deriving Repr

/-- Header lookup (`request.headers.get(name)`). -/
def headerGet (req : PReq) (name : String) : Option String :=
  match req.headers.find? (fun h => h.1 == name) with
  | some h => some h.2
  | none => none

/-- Python's `str.strip()` on a character list. -/
def pyStrip (l : List Char) : List Char :=
  ((l.dropWhile isWsChar).reverse.dropWhile isWsChar).reverse

/-- Model of `proxy_request` at the status/commit level: a status and the
database after the per-request commits.  On an upstream response the
`RequestHash` commit runs (when the key resolves), then a Merkle batch close
is attempted, then the 2xx usage/billing commit; the `httpx` exception arms
commit nothing and map to 504/502/502.  (`.strip()` / `.startswith` are the
character-list models `pyStrip` / `isPrefixOfChars`.) -/
def proxy_request (service : ServiceRow) (req : PReq) (api_key : String) (db : Db)
    (now : ℚ) (batchSize : Nat) (up : Upstream) : Nat × Db :=
  let url := pyStrip service.target_url.toList
  if url = [] then (500, db)
  else if ¬ (isPrefixOfChars "http://".toList url = true
      ∨ isPrefixOfChars "https://".toList url = true) then (500, db)
  else
    match up with
    | .timeout => (504, db)
    | .connectError => (502, db)
    | .requestError => (502, db)
    | .response status =>
      let api_key_obj := findActiveApiKey db api_key
      let db1 :=
        match api_key_obj with
        | some a =>
          let h := compute_request_hash service.id a.id now req.path status
          let row : RequestHashRow :=
            ⟨nextRequestHashId db, service.id, a.id, now, req.path, status, h, none⟩
          let dbh := { db with requestHashes := db.requestHashes ++ [row] }
          let batch := compute_and_store_merkle_root batchSize (nextMerkleRootId dbh) dbh.requestHashes
          let newRoots := match batch.1 with
            | some mr => [mr]
            | none => []
          { dbh with requestHashes := batch.2, merkleRoots := dbh.merkleRoots ++ newRoots }
        | none => db
      let db2 :=
        if 200 ≤ status ∧ status < 300 then
          { db1 with
            usageLogs := db1.usageLogs ++
              [⟨(db1.usageLogs.map (fun l => l.id)).foldl max 0 + 1, service.id, api_key, now⟩],
            apiKeys := db1.apiKeys.map (fun a =>
              match api_key_obj with
              | some k =>
                if a.id == k.id then { a with total_cost := a.total_cost + a.price_per_request }
                else a
              | none => a) }
        else db1
      (status, db2)

/-- The outcome of one `proxy_get` handler run: final status, new state, and
which pipeline stages were reached. -/
structure PipelineResult where
  status : Nat
  db : Db
  store : RateStore
  rateLimiterConsulted : Bool
  dispatched : Bool

/-- Model of the `proxy_get` handler: authentication (the `Depends` runs
first), service lookup, service-scope authorization, bot classification with
its log commit, optional blocking, rate limiting, then upstream dispatch. -/
def proxy_get (db : Db) (st : RateStore) (req : PReq) (now : ℚ) (batchSize : Nat)
    (up : Upstream) : PipelineResult :=
  match get_current_user db (headerGet req "x-api-key") with
  | .error e => ⟨e, db, st, false, false⟩
  | .ok _ =>
    let api_key := (headerGet req "x-api-key").getD ""
    match db.services.find? (fun s => s.id == req.serviceId) with
    | none => ⟨404, db, st, false, false⟩
    | some service =>
      if ¬ validate_api_key_for_service api_key req.serviceId db then
        ⟨403, db, st, false, false⟩
      else
        let user_agent := (headerGet req "user-agent").getD ""
        let bot_score := calculate_bot_score user_agent (req.headers.map (fun h => h.1))
          (recentUsageCount db api_key now)
        let classification := classify_traffic bot_score
        let block_enabled :=
          match db.serviceConfigs.find? (fun c => c.service_id == req.serviceId) with
          | some c => c.block_bots_enabled
          | none => false
        let decision := should_block bot_score block_enabled 0.7
        let db1 := { db with botLogs := db.botLogs ++
          [⟨req.serviceId, api_key, bot_score, classification, user_agent, decision.2⟩] }
        if decision.1 then ⟨403, db1, st, false, false⟩
        else
          let rl := check_rate_limit db1 st api_key now
          if ¬ rl.1 then ⟨429, db1, rl.2, true, false⟩
          else
            let pr := proxy_request service req api_key db1 now batchSize up
            ⟨pr.1, pr.2, rl.2, true, true⟩

/-- A same-key sequence of limiter calls folded over one bucket (each call
passes the bucket's own capacity, so no reinitialisation occurs). -/
def runTakes (b : Bucket) (times : List ℚ) : Bucket :=
  times.foldl (fun b t => (takeOne (some b) b.capacity b.refill_rate t).2) b

/-! ## Theorems -/

/-- One merkle level halves the list, rounding up. -/
theorem merkleLevel_length : ∀ l : List String, (merkleLevel l).length = (l.length + 1) / 2
  | [] => by simp [merkleLevel]
  | [_] => by simp [merkleLevel]
  | _ :: _ :: rest => by
    simp only [merkleLevel, List.length_cons, merkleLevel_length rest]
    omega

/-- The merkle loop is insensitive to the exact fuel once the fuel covers the
level length. -/
theorem merkleBuildLoop_fuel (f1 : Nat) : ∀ (f2 : Nat) (cur : List String),
    cur.length ≤ f1 → cur.length ≤ f2 → merkleBuildLoop f1 cur = merkleBuildLoop f2 cur := by
  induction f1 with
  | zero =>
    intro f2 cur h1 _
    have hnil : cur = [] := List.length_eq_zero.mp (Nat.le_zero.mp h1)
    subst hnil
    cases f2 with
    | zero => rfl
    | succ m => simp [merkleBuildLoop]
  | succ n ih =>
    intro f2 cur h1 h2
    cases f2 with
    | zero =>
      have hnil : cur = [] := List.length_eq_zero.mp (Nat.le_zero.mp h2)
      subst hnil
      simp [merkleBuildLoop]
    | succ m =>
      by_cases hl : cur.length ≤ 1
      · simp [merkleBuildLoop, hl]
      · have hlen := merkleLevel_length cur
        have h1' : (merkleLevel cur).length ≤ n := by omega
        have h2' : (merkleLevel cur).length ≤ m := by omega
        simp only [merkleBuildLoop, if_neg hl]
        exact ih m (merkleLevel cur) h1' h2'

/-- `build_merkle_tree` is the merkle loop on any nonempty input. -/
theorem build_merkle_tree_eq_loop (l : List String) (h : 1 ≤ l.length) :
    build_merkle_tree l = (merkleBuildLoop l.length l).headD "" := by
  match l with
  | [x] => simp [build_merkle_tree, merkleBuildLoop]
  | a :: b :: rest => rfl

/-- On lists of length at least two, `build_merkle_tree` takes one level
step. -/
theorem build_merkle_tree_step (l : List String) (h : 2 ≤ l.length) :
    build_merkle_tree l = build_merkle_tree (merkleLevel l) := by
  have hlev := merkleLevel_length l
  have h1 : build_merkle_tree l = (merkleBuildLoop l.length l).headD "" :=
    build_merkle_tree_eq_loop l (by omega)
  have h2 : merkleBuildLoop l.length l = merkleBuildLoop (l.length - 1) (merkleLevel l) := by
    have hsucc : l.length = (l.length - 1) + 1 := by omega
    conv =>
      lhs
      rw [hsucc]
    simp only [merkleBuildLoop]
    rw [if_neg (by omega)]
  have h3 : merkleBuildLoop (l.length - 1) (merkleLevel l)
      = merkleBuildLoop (merkleLevel l).length (merkleLevel l) :=
    merkleBuildLoop_fuel (l.length - 1) (merkleLevel l).length (merkleLevel l)
      (by omega) (Nat.le_refl _)
  have h4 : build_merkle_tree (merkleLevel l)
      = (merkleBuildLoop (merkleLevel l).length (merkleLevel l)).headD "" :=
    build_merkle_tree_eq_loop (merkleLevel l) (by omega)
  rw [h1, h2, h3, h4]

/-- C1.  `build_merkle_tree` realises the spec's construction: the empty
list gives the empty root, a singleton gives that hash, one loop iteration
maps a level to the next by pairing adjacent hex strings (SHA-256 of their
ASCII concatenation) and duplicating a trailing odd element, the loop
iterates until one hash remains, and in particular
`build_merkle_tree [a, b, c]` is
`SHA-256(hex(SHA-256(a ‖ b)) ‖ hex(SHA-256(c ‖ c)))` for all hashes
`a`, `b`, `c`. -/
theorem C1_build_merkle_tree :
    build_merkle_tree [] = ""
    ∧ (∀ a, build_merkle_tree [a] = a)
    ∧ (∀ l, 2 ≤ l.length → build_merkle_tree l = build_merkle_tree (merkleLevel l))
    ∧ (∀ a b rest, merkleLevel (a :: b :: rest) = sha256sHex (a ++ b) :: merkleLevel rest)
    ∧ (∀ a, merkleLevel [a] = [sha256sHex (a ++ a)])
    ∧ (∀ a b c, build_merkle_tree [a, b, c]
        = sha256sHex (sha256sHex (a ++ b) ++ sha256sHex (c ++ c))) := by
  refine ⟨rfl, fun a => rfl, build_merkle_tree_step, fun a b rest => rfl, fun a => rfl,
    fun a b c => rfl⟩

/-- Witness for `C1_build_merkle_tree`: its level-step hypothesis holds at a
concrete two-element level. -/
theorem C1_build_merkle_tree_witness :
    2 ≤ (["aa", "bb"] : List String).length
    ∧ build_merkle_tree ["aa", "bb"] = build_merkle_tree (merkleLevel ["aa", "bb"]) :=
  ⟨by decide, C1_build_merkle_tree.2.2.1 ["aa", "bb"] (by decide)⟩


/-- `takeOne` on a stored bucket whose capacity is unchanged: refill to
`min(capacity, tokens + elapsed * refill_rate)`, admit iff a token is
available. -/
theorem takeOne_same_capacity (b : Bucket) (rate now : ℚ) :
    takeOne (some b) b.capacity rate now
      = (let refilled := min ((b.capacity : ℚ)) (b.tokens + (now - b.last_refill) * b.refill_rate)
         if 1 ≤ refilled then ((true : Bool), (⟨refilled - 1, now, b.capacity, b.refill_rate⟩ : Bucket))
         else ((false : Bool), (⟨refilled, now, b.capacity, b.refill_rate⟩ : Bucket))) := by
  simp [takeOne]

/-- The token count `takeOne` writes back, as an `if` on the refilled count. -/
theorem takeOne_tokens_eq (b : Bucket) (rate now : ℚ) :
    (takeOne (some b) b.capacity rate now).2.tokens
      = (if 1 ≤ min ((b.capacity : ℚ)) (b.tokens + (now - b.last_refill) * b.refill_rate)
         then min ((b.capacity : ℚ)) (b.tokens + (now - b.last_refill) * b.refill_rate) - 1
         else min ((b.capacity : ℚ)) (b.tokens + (now - b.last_refill) * b.refill_rate)) := by
  rw [takeOne_same_capacity]
  by_cases h : 1 ≤ min ((b.capacity : ℚ)) (b.tokens + (now - b.last_refill) * b.refill_rate) <;>
    simp [h]

/-- The admit flag `takeOne` returns. -/
theorem takeOne_fst_eq (b : Bucket) (rate now : ℚ) :
    (takeOne (some b) b.capacity rate now).1
      = decide (1 ≤ min ((b.capacity : ℚ)) (b.tokens + (now - b.last_refill) * b.refill_rate)) := by
  rw [takeOne_same_capacity]
  by_cases h : 1 ≤ min ((b.capacity : ℚ)) (b.tokens + (now - b.last_refill) * b.refill_rate) <;>
    simp [h]

/-- The component fields `takeOne` writes back. -/
theorem takeOne_fields (b : Bucket) (rate now : ℚ) :
    (takeOne (some b) b.capacity rate now).2.capacity = b.capacity
    ∧ (takeOne (some b) b.capacity rate now).2.refill_rate = b.refill_rate
    ∧ (takeOne (some b) b.capacity rate now).2.last_refill = now := by
  rw [takeOne_same_capacity]
  by_cases h : 1 ≤ min ((b.capacity : ℚ)) (b.tokens + (now - b.last_refill) * b.refill_rate) <;>
    simp [h]

/-- A single admitted or denied call keeps the token count within
`[0, capacity]`. -/
theorem takeOne_tokens_bounds (b : Bucket) (now : ℚ) (h0 : 0 ≤ b.tokens)
    (h1 : b.tokens ≤ (b.capacity : ℚ)) (h2 : 0 ≤ b.refill_rate) (h3 : b.last_refill ≤ now) :
    0 ≤ (takeOne (some b) b.capacity b.refill_rate now).2.tokens
    ∧ (takeOne (some b) b.capacity b.refill_rate now).2.tokens ≤ (b.capacity : ℚ) := by
  have hcast : (0 : ℚ) ≤ (b.capacity : ℚ) := Nat.cast_nonneg _
  have hmul : 0 ≤ (now - b.last_refill) * b.refill_rate := mul_nonneg (by linarith) h2
  have hnn : 0 ≤ min ((b.capacity : ℚ)) (b.tokens + (now - b.last_refill) * b.refill_rate) :=
    le_min hcast (by linarith)
  have hub : min ((b.capacity : ℚ)) (b.tokens + (now - b.last_refill) * b.refill_rate)
      ≤ (b.capacity : ℚ) := min_le_left _ _
  rw [takeOne_tokens_eq]
  by_cases h : 1 ≤ min ((b.capacity : ℚ)) (b.tokens + (now - b.last_refill) * b.refill_rate)
  · rw [if_pos h]; exact ⟨by linarith, by linarith⟩
  · rw [if_neg h]; exact ⟨hnn, hub⟩

/-- C6.  The limiter is the token-bucket take-one protocol: a fresh bucket
starts with `tokens = capacity`; a stored call refills to
`min(capacity, tokens + elapsed * refill_rate)` and admits (consuming one
token) iff the refilled count is at least 1; and with capacity 3 and window
60 s three takes at t = 0 are admitted, a fourth at t = 0 is denied, and one
take at t = 20 s is admitted again. -/
theorem C6_token_bucket :
    (∀ (capacity : Nat) (refill_rate now : ℚ),
      takeOne none capacity refill_rate now
        = (if 1 ≤ (capacity : ℚ)
           then ((true : Bool), (⟨(capacity : ℚ) - 1, now, capacity, refill_rate⟩ : Bucket))
           else ((false : Bool), (⟨(capacity : ℚ), now, capacity, refill_rate⟩ : Bucket))))
    ∧ (∀ (b : Bucket) (rate now : ℚ),
        takeOne (some b) b.capacity rate now
          = (let refilled := min ((b.capacity : ℚ))
               (b.tokens + (now - b.last_refill) * b.refill_rate)
             if 1 ≤ refilled
             then ((true : Bool), (⟨refilled - 1, now, b.capacity, b.refill_rate⟩ : Bucket))
             else ((false : Bool), (⟨refilled, now, b.capacity, b.refill_rate⟩ : Bucket))))
    ∧ takeOne none 3 (3 / 60) 0 = (true, ⟨2, 0, 3, 3 / 60⟩)
    ∧ takeOne (some ⟨2, 0, 3, 3 / 60⟩) 3 (3 / 60) 0 = (true, ⟨1, 0, 3, 3 / 60⟩)
    ∧ takeOne (some ⟨1, 0, 3, 3 / 60⟩) 3 (3 / 60) 0 = (true, ⟨0, 0, 3, 3 / 60⟩)
    ∧ takeOne (some ⟨0, 0, 3, 3 / 60⟩) 3 (3 / 60) 0 = (false, ⟨0, 0, 3, 3 / 60⟩)
    ∧ takeOne (some ⟨0, 0, 3, 3 / 60⟩) 3 (3 / 60) 20 = (true, ⟨0, 20, 3, 3 / 60⟩) := by
  refine ⟨fun capacity refill_rate now => ?_, takeOne_same_capacity,
    by norm_num [takeOne, initBucket, min_def], by norm_num [takeOne, initBucket, min_def],
    by norm_num [takeOne, initBucket, min_def], by norm_num [takeOne, initBucket, min_def],
    by norm_num [takeOne, initBucket, min_def]⟩
  simp [takeOne, initBucket]

/-- C10.  Limiter bucket invariant: starting from any in-range bucket, every
call (over any nondecreasing sequence of instants) keeps the token count in
`[0, capacity]`; an admitted call consumes exactly one token from the
refilled count and happens only when that count is at least 1; a denied call
leaves the refilled count untouched. -/
theorem C10_bucket_invariant :
    (∀ (b : Bucket) (now : ℚ), 0 ≤ b.tokens → b.tokens ≤ (b.capacity : ℚ) →
      0 ≤ b.refill_rate → b.last_refill ≤ now →
      (0 ≤ (takeOne (some b) b.capacity b.refill_rate now).2.tokens
        ∧ (takeOne (some b) b.capacity b.refill_rate now).2.tokens ≤ (b.capacity : ℚ))
      ∧ ((takeOne (some b) b.capacity b.refill_rate now).1 = true →
          1 ≤ min ((b.capacity : ℚ)) (b.tokens + (now - b.last_refill) * b.refill_rate)
          ∧ (takeOne (some b) b.capacity b.refill_rate now).2.tokens
            = min ((b.capacity : ℚ)) (b.tokens + (now - b.last_refill) * b.refill_rate) - 1)
      ∧ ((takeOne (some b) b.capacity b.refill_rate now).1 = false →
          (takeOne (some b) b.capacity b.refill_rate now).2.tokens
            = min ((b.capacity : ℚ)) (b.tokens + (now - b.last_refill) * b.refill_rate)))
    ∧ (∀ (times : List ℚ) (b : Bucket), 0 ≤ b.tokens → b.tokens ≤ (b.capacity : ℚ) →
        0 ≤ b.refill_rate → List.Chain (· ≤ ·) b.last_refill times →
        0 ≤ (runTakes b times).tokens
        ∧ (runTakes b times).tokens ≤ ((runTakes b times).capacity : ℚ)
        ∧ (runTakes b times).capacity = b.capacity) := by
  constructor
  · intro b now h0 h1 h2 h3
    refine ⟨takeOne_tokens_bounds b now h0 h1 h2 h3, ?_, ?_⟩ <;>
      rw [takeOne_fst_eq, takeOne_tokens_eq] <;> intro hflag
    · have h : 1 ≤ min ((b.capacity : ℚ)) (b.tokens + (now - b.last_refill) * b.refill_rate) :=
        of_decide_eq_true hflag
      exact ⟨h, by rw [if_pos h]⟩
    · have h : ¬ 1 ≤ min ((b.capacity : ℚ)) (b.tokens + (now - b.last_refill) * b.refill_rate) :=
        of_decide_eq_false hflag
      rw [if_neg h]
  · intro times
    induction times with
    | nil => intro b h0 h1 _ _; exact ⟨h0, h1, rfl⟩
    | cons t ts ih =>
      intro b h0 h1 h2 hchain
      rw [List.chain_cons] at hchain
      have hstep := takeOne_tokens_bounds b t h0 h1 h2 hchain.1
      have hfields := takeOne_fields b b.refill_rate t
      have hrun : runTakes b (t :: ts)
          = runTakes (takeOne (some b) b.capacity b.refill_rate t).2 ts := rfl
      rw [hrun]
      have h1' : (takeOne (some b) b.capacity b.refill_rate t).2.tokens
          ≤ (((takeOne (some b) b.capacity b.refill_rate t).2.capacity : ℚ)) := by
        rw [hfields.1]; exact hstep.2
      have h2' : 0 ≤ (takeOne (some b) b.capacity b.refill_rate t).2.refill_rate := by
        rw [hfields.2.1]; exact h2
      have hchain' : List.Chain (· ≤ ·)
          (takeOne (some b) b.capacity b.refill_rate t).2.last_refill ts := by
        rw [hfields.2.2]; exact hchain.2
      have hres := ih (takeOne (some b) b.capacity b.refill_rate t).2 hstep.1 h1' h2' hchain'
      refine ⟨hres.1, hres.2.1, ?_⟩
      rw [hres.2.2, hfields.1]

/-- Witness for `C10_bucket_invariant`: a concrete in-range bucket and a
concrete nondecreasing schedule satisfy all hypotheses. -/
theorem C10_bucket_invariant_witness :
    ((0 : ℚ) ≤ (2 : ℚ) ∧ (2 : ℚ) ≤ (((3 : Nat) : ℚ)) ∧ (0 : ℚ) ≤ (1 / 20 : ℚ)
      ∧ List.Chain (· ≤ ·) (0 : ℚ) [5, 9])
    ∧ (0 ≤ (runTakes ⟨2, 0, 3, 1 / 20⟩ [5, 9]).tokens
        ∧ (runTakes ⟨2, 0, 3, 1 / 20⟩ [5, 9]).tokens
          ≤ ((runTakes ⟨2, 0, 3, 1 / 20⟩ [5, 9]).capacity : ℚ)
        ∧ (runTakes ⟨2, 0, 3, 1 / 20⟩ [5, 9]).capacity = (3 : Nat)) := by
  have hchain : List.Chain (· ≤ ·) (0 : ℚ) [5, 9] := by
    constructor
    · norm_num
    · constructor
      · norm_num
      · constructor
  have hmain := C10_bucket_invariant.2 [5, 9] ⟨2, 0, 3, 1 / 20⟩ (by norm_num)
    (by norm_num) (by norm_num) hchain
  exact ⟨⟨by norm_num, by norm_num, by norm_num, hchain⟩, hmain⟩

/-- An API key the authenticator's predicate rejects everywhere is not found. -/
theorem findActiveApiKey_eq_none (db : Db) (k : String)
    (h : ∀ a ∈ db.apiKeys, a.key = k → a.is_active = false) :
    findActiveApiKey db k = none := by
  apply List.find?_eq_none.mpr
  intro a ha
  by_cases hk : a.key = k
  · simp [hk, h a ha hk]
  · simp [hk]

/-- Authentication fails whenever every row holding the secret is inactive
and no user-level key carries it. -/
theorem get_current_user_fails (db : Db) (k : String)
    (h1 : ∀ a ∈ db.apiKeys, a.key = k → a.is_active = false)
    (h2 : ∀ u ∈ db.users, u.api_key ≠ k) :
    get_current_user db (some k) = .error 401 := by
  have hfind := findActiveApiKey_eq_none db k h1
  have husers : db.users.find? (fun u => u.api_key == k) = none := by
    apply List.find?_eq_none.mpr
    intro u hu
    simp [h2 u hu]
  simp [get_current_user, hfind, husers]

/-- C5.  Revocation is permanent for authentication: the revoke endpoint
sets the key row's `is_active` to false, and in every database state in
which all rows holding a secret are inactive and no user-level key equals
it — in particular immediately after revoking the unique row holding it —
authentication with that secret returns 401. -/
theorem C5_revocation_permanent :
    (∀ (db : Db) (sid kid : Nat) (db' : Db),
      revoke_service_api_key db sid kid = .ok db' →
      ∀ a ∈ db'.apiKeys, a.id = kid → a.service_id = sid → a.is_active = false)
    ∧ (∀ (db : Db) (k : String),
        (∀ a ∈ db.apiKeys, a.key = k → a.is_active = false) →
        (∀ u ∈ db.users, u.api_key ≠ k) →
        get_current_user db (some k) = .error 401)
    ∧ (∀ (db : Db) (sid kid : Nat) (k : String) (db' : Db),
        revoke_service_api_key db sid kid = .ok db' →
        (∀ a ∈ db.apiKeys, a.key = k → a.id = kid ∧ a.service_id = sid) →
        (∀ u ∈ db.users, u.api_key ≠ k) →
        get_current_user db' (some k) = .error 401) := by
  have hrevoked : ∀ (db : Db) (sid kid : Nat) (db' : Db),
      revoke_service_api_key db sid kid = .ok db' →
      db'.users = db.users ∧
      db'.apiKeys = db.apiKeys.map (fun a =>
        if a.id == kid && a.service_id == sid then { a with is_active := false } else a) := by
    intro db sid kid db' hrev
    unfold revoke_service_api_key at hrev
    cases hs : db.services.find? (fun s => s.id == sid) with
    | none => rw [hs] at hrev; exact absurd hrev (by simp)
    | some s =>
      rw [hs] at hrev
      cases hk : db.apiKeys.find? (fun a => a.id == kid && a.service_id == sid) with
      | none => rw [hk] at hrev; exact absurd hrev (by simp)
      | some arow =>
        rw [hk] at hrev
        simp only [Except.ok.injEq] at hrev
        rw [← hrev]
        exact ⟨rfl, rfl⟩
  refine ⟨?_, get_current_user_fails, ?_⟩
  · intro db sid kid db' hrev a ha hid hsid
    rw [(hrevoked db sid kid db' hrev).2] at ha
    obtain ⟨a0, ha0, hmap⟩ := List.mem_map.mp ha
    by_cases hc : (a0.id == kid && a0.service_id == sid) = true
    · rw [if_pos hc] at hmap
      rw [← hmap]
    · rw [if_neg hc] at hmap
      subst hmap
      simp only [Bool.and_eq_true, beq_iff_eq] at hc
      exact absurd ⟨hid, hsid⟩ hc
  · intro db sid kid k db' hrev hunique husers
    obtain ⟨hu, hk⟩ := hrevoked db sid kid db' hrev
    apply get_current_user_fails
    · intro a ha hkey
      rw [hk] at ha
      obtain ⟨a0, ha0, hmap⟩ := List.mem_map.mp ha
      by_cases hc : (a0.id == kid && a0.service_id == sid) = true
      · rw [if_pos hc] at hmap
        rw [← hmap]
      · rw [if_neg hc] at hmap
        subst hmap
        have := hunique a0 ha0 hkey
        simp only [Bool.and_eq_true, beq_iff_eq] at hc
        exact absurd this hc
    · intro u hu' hk'
      rw [hu] at hu'
      exact husers u hu' hk'

/-- Witness for `C5_revocation_permanent`: a one-key database where the
revoke endpoint succeeds and authentication subsequently fails. -/
theorem C5_revocation_permanent_witness :
    revoke_service_api_key
        ⟨[⟨1, "owner", "OTHERKEY"⟩], [⟨1, "svc", "http://u.example", 1, false⟩],
         [⟨5, "SECRET", 1, true, none, none, 0, 0⟩], [], [], [], [], []⟩ 1 5
      = .ok ⟨[⟨1, "owner", "OTHERKEY"⟩], [⟨1, "svc", "http://u.example", 1, false⟩],
         [⟨5, "SECRET", 1, false, none, none, 0, 0⟩], [], [], [], [], []⟩
    ∧ get_current_user
        ⟨[⟨1, "owner", "OTHERKEY"⟩], [⟨1, "svc", "http://u.example", 1, false⟩],
         [⟨5, "SECRET", 1, false, none, none, 0, 0⟩], [], [], [], [], []⟩ (some "SECRET")
      = .error 401 := by
  refine ⟨rfl, C5_revocation_permanent.2.2
    ⟨[⟨1, "owner", "OTHERKEY"⟩], [⟨1, "svc", "http://u.example", 1, false⟩],
     [⟨5, "SECRET", 1, true, none, none, 0, 0⟩], [], [], [], [], []⟩ 1 5 "SECRET" _ rfl ?_ ?_⟩
  · intro a ha hk
    simp only [List.mem_singleton] at ha
    subst ha
    exact ⟨rfl, rfl⟩
  · intro u hu
    simp only [List.mem_singleton] at hu
    subst hu
    simp

/-- C4.  Service-scope authorization: an active key bound to service A
validates for A and fails validation for every other existing service B,
and the GET proxy pipeline answers 403 (hence never 2xx) when that key is
presented against B. -/
theorem C4_service_scope (db : Db) (st : RateStore) (a : ApiKeyRow) (sA : ServiceRow)
    (uOwner : UserRow) (sB : ServiceRow) (k : String) (headers : List (String × String))
    (path : String) (now : ℚ) (batchSize : Nat) (up : Upstream)
    (hfind : findActiveApiKey db k = some a)
    (hsa : db.services.find? (fun s => s.id == a.service_id) = some sA)
    (hu : db.users.find? (fun u => u.id == sA.owner_id) = some uOwner)
    (hsb : db.services.find? (fun s => s.id == sB.id) = some sB)
    (hne : sB.id ≠ a.service_id)
    (hheader : headerGet ⟨sB.id, headers, path⟩ "x-api-key" = some k) :
    validate_api_key_for_service k a.service_id db = true
    ∧ validate_api_key_for_service k sB.id db = false
    ∧ (proxy_get db st ⟨sB.id, headers, path⟩ now batchSize up).status = 403
    ∧ ¬ (200 ≤ (proxy_get db st ⟨sB.id, headers, path⟩ now batchSize up).status
          ∧ (proxy_get db st ⟨sB.id, headers, path⟩ now batchSize up).status < 300) := by
  have hvalA : validate_api_key_for_service k a.service_id db = true := by
    simp [validate_api_key_for_service, hfind]
  have hvalB : validate_api_key_for_service k sB.id db = false := by
    simp only [validate_api_key_for_service, hfind]
    exact beq_eq_false_iff_ne.mpr (fun hh => hne hh.symm)
  have hauth : get_current_user db (some k) = .ok uOwner := by
    simp [get_current_user, hfind, hsa, hu]
  have hpipe : (proxy_get db st ⟨sB.id, headers, path⟩ now batchSize up).status = 403 := by
    simp [proxy_get, hheader, hauth, hsb, hvalB]
  refine ⟨hvalA, hvalB, hpipe, ?_⟩
  rw [hpipe]
  omega

/-- Witness for `C4_service_scope`: two services owned by the same user, a
key bound to service 1 presented against service 2. -/
theorem C4_service_scope_witness :
    (findActiveApiKey
        ⟨[⟨1, "owner", "UK"⟩],
         [⟨1, "s1", "http://u.example", 1, false⟩, ⟨2, "s2", "http://v.example", 1, false⟩],
         [⟨1, "K1", 1, true, none, none, 0, 0⟩], [], [], [], [], []⟩ "K1"
      = some ⟨1, "K1", 1, true, none, none, 0, 0⟩)
    ∧ ((2 : Nat) ≠ 1)
    ∧ validate_api_key_for_service "K1" 1
        ⟨[⟨1, "owner", "UK"⟩],
         [⟨1, "s1", "http://u.example", 1, false⟩, ⟨2, "s2", "http://v.example", 1, false⟩],
         [⟨1, "K1", 1, true, none, none, 0, 0⟩], [], [], [], [], []⟩ = true
    ∧ (proxy_get
        ⟨[⟨1, "owner", "UK"⟩],
         [⟨1, "s1", "http://u.example", 1, false⟩, ⟨2, "s2", "http://v.example", 1, false⟩],
         [⟨1, "K1", 1, true, none, none, 0, 0⟩], [], [], [], [], []⟩
        [] ⟨2, [("x-api-key", "K1")], "/x"⟩ 0 10 (Upstream.response 200)).status = 403 := by
  have h := C4_service_scope
    ⟨[⟨1, "owner", "UK"⟩],
     [⟨1, "s1", "http://u.example", 1, false⟩, ⟨2, "s2", "http://v.example", 1, false⟩],
     [⟨1, "K1", 1, true, none, none, 0, 0⟩], [], [], [], [], []⟩
    [] ⟨1, "K1", 1, true, none, none, 0, 0⟩ ⟨1, "s1", "http://u.example", 1, false⟩
    ⟨1, "owner", "UK"⟩ ⟨2, "s2", "http://v.example", 1, false⟩ "K1"
    [("x-api-key", "K1")] "/x" 0 10 (Upstream.response 200)
    rfl rfl rfl rfl (by decide) rfl
  exact ⟨rfl, by omega, h.1, h.2.2.1⟩

/-- The batch-close table update touches only `merkle_batch_id`: the
per-row (status, path) view is unchanged. -/
theorem map_status_path_update (newId : Nat) (sel : List RequestHashRow) :
    ∀ table : List RequestHashRow,
    ((table.map (fun r =>
        if sel.any (fun s => s.id == r.id) then { r with merkle_batch_id := some newId }
        else r)).map (fun r => (r.response_status, r.request_path)))
      = table.map (fun r => (r.response_status, r.request_path))
  | [] => rfl
  | r :: rest => by
    simp only [List.map_cons, map_status_path_update newId sel rest]
    by_cases h : sel.any (fun s => s.id == r.id) = true <;> simp [h]

/-- Closing a Merkle batch preserves every row's (status, path) view. -/
theorem merkle_close_preserves_status_path (batchSize newId : Nat)
    (table : List RequestHashRow) :
    ((compute_and_store_merkle_root batchSize newId table).2).map
        (fun r => (r.response_status, r.request_path))
      = table.map (fun r => (r.response_status, r.request_path)) := by
  unfold compute_and_store_merkle_root
  by_cases h : (selectUnbatched batchSize table).length < batchSize
  · simp [h]
  · simp only [h, if_false]
    exact map_status_path_update newId (selectUnbatched batchSize table) table

/-- C3 (amended).  With a well-formed target URL, the `httpx` exception arms
of `proxy_request` commit nothing: a timeout returns 504 with the database
untouched (502 for connection/transport errors); a `RequestHash` row is
appended exactly when an upstream response (of any status) arrives and the
key resolves, and it carries that response's status. -/
theorem C3_request_hash_commitment (service : ServiceRow) (req : PReq) (k : String)
    (db : Db) (now : ℚ) (batchSize : Nat)
    (hscheme : isPrefixOfChars "http://".toList (pyStrip service.target_url.toList) = true
      ∨ isPrefixOfChars "https://".toList (pyStrip service.target_url.toList) = true) :
    proxy_request service req k db now batchSize .timeout = (504, db)
    ∧ proxy_request service req k db now batchSize .connectError = (502, db)
    ∧ proxy_request service req k db now batchSize .requestError = (502, db)
    ∧ (∀ (status : Nat) (a : ApiKeyRow), findActiveApiKey db k = some a →
        (proxy_request service req k db now batchSize (.response status)).1 = status
        ∧ ((proxy_request service req k db now batchSize (.response status)).2.requestHashes.map
            (fun r => (r.response_status, r.request_path)))
          = db.requestHashes.map (fun r => (r.response_status, r.request_path))
            ++ [(status, req.path)]) := by
  have hne : ¬ pyStrip service.target_url.toList = [] := by
    intro h
    rcases hscheme with hs | hs <;> rw [h] at hs <;> exact absurd hs (by decide)
  have hsch : ¬ ¬ (isPrefixOfChars "http://".toList (pyStrip service.target_url.toList) = true
      ∨ isPrefixOfChars "https://".toList (pyStrip service.target_url.toList) = true) :=
    not_not_intro hscheme
  refine ⟨?_, ?_, ?_, ?_⟩
  · simp only [proxy_request, if_neg hne, if_neg hsch]
  · simp only [proxy_request, if_neg hne, if_neg hsch]
  · simp only [proxy_request, if_neg hne, if_neg hsch]
  · intro status a hfind
    constructor
    · simp only [proxy_request, if_neg hne, if_neg hsch, hfind]
    · simp only [proxy_request, if_neg hne, if_neg hsch, hfind]
      by_cases h2 : 200 ≤ status ∧ status < 300 <;>
        simp [h2, merkle_close_preserves_status_path]

/-- Witness for `C3_request_hash_commitment`: a concrete service with an
http target, a resolving key, and a concrete 200 response. -/
theorem C3_request_hash_commitment_witness :
    (isPrefixOfChars "http://".toList (pyStrip ("http://u.example" : String).toList) = true
      ∨ isPrefixOfChars "https://".toList (pyStrip ("http://u.example" : String).toList) = true)
    ∧ proxy_request ⟨1, "s", "http://u.example", 1, false⟩ ⟨1, [("x-api-key", "K")], "/p"⟩ "K"
        ⟨[⟨1, "u", "UK"⟩], [⟨1, "s", "http://u.example", 1, false⟩],
         [⟨1, "K", 1, true, none, none, 0, 0⟩], [], [], [], [], []⟩ 0 10 .timeout
      = (504, ⟨[⟨1, "u", "UK"⟩], [⟨1, "s", "http://u.example", 1, false⟩],
         [⟨1, "K", 1, true, none, none, 0, 0⟩], [], [], [], [], []⟩)
    ∧ ((proxy_request ⟨1, "s", "http://u.example", 1, false⟩ ⟨1, [("x-api-key", "K")], "/p"⟩ "K"
        ⟨[⟨1, "u", "UK"⟩], [⟨1, "s", "http://u.example", 1, false⟩],
         [⟨1, "K", 1, true, none, none, 0, 0⟩], [], [], [], [], []⟩ 0 10
        (.response 200)).2.requestHashes.map (fun r => (r.response_status, r.request_path)))
      = [((200 : Nat), "/p")] := by
  have hscheme : isPrefixOfChars "http://".toList (pyStrip ("http://u.example" : String).toList) = true
      ∨ isPrefixOfChars "https://".toList (pyStrip ("http://u.example" : String).toList) = true := by
    left; rfl
  have h := C3_request_hash_commitment ⟨1, "s", "http://u.example", 1, false⟩
    ⟨1, [("x-api-key", "K")], "/p"⟩ "K"
    ⟨[⟨1, "u", "UK"⟩], [⟨1, "s", "http://u.example", 1, false⟩],
     [⟨1, "K", 1, true, none, none, 0, 0⟩], [], [], [], [], []⟩ 0 10 hscheme
  refine ⟨hscheme, h.1, ?_⟩
  have h2 := (h.2.2.2 200 ⟨1, "K", 1, true, none, none, 0, 0⟩ rfl).2
  simpa using h2

/-- C3 (counterexample to the claim as stated).  On an upstream timeout the
gateway answers 504 but commits no `RequestHash` at all — in particular no
row with `response_status = 504` exists afterwards, although the key
resolved. -/
theorem C3_counterexample :
    (findActiveApiKey
        ⟨[⟨1, "u", "UK"⟩], [⟨1, "s", "http://u.example", 1, false⟩],
         [⟨1, "K", 1, true, none, none, 0, 0⟩], [], [], [], [], []⟩ "K").isSome = true
    ∧ (proxy_request ⟨1, "s", "http://u.example", 1, false⟩ ⟨1, [("x-api-key", "K")], "/p"⟩ "K"
        ⟨[⟨1, "u", "UK"⟩], [⟨1, "s", "http://u.example", 1, false⟩],
         [⟨1, "K", 1, true, none, none, 0, 0⟩], [], [], [], [], []⟩ 0 10 .timeout).1 = 504
    ∧ ¬ (∃ r ∈ (proxy_request ⟨1, "s", "http://u.example", 1, false⟩
          ⟨1, [("x-api-key", "K")], "/p"⟩ "K"
          ⟨[⟨1, "u", "UK"⟩], [⟨1, "s", "http://u.example", 1, false⟩],
           [⟨1, "K", 1, true, none, none, 0, 0⟩], [], [], [], [], []⟩ 0 10
          .timeout).2.requestHashes, r.response_status = 504) := by
  refine ⟨rfl, rfl, ?_⟩
  intro hex
  obtain ⟨r, hr, _⟩ := hex
  have : (proxy_request ⟨1, "s", "http://u.example", 1, false⟩
      ⟨1, [("x-api-key", "K")], "/p"⟩ "K"
      ⟨[⟨1, "u", "UK"⟩], [⟨1, "s", "http://u.example", 1, false⟩],
       [⟨1, "K", 1, true, none, none, 0, 0⟩], [], [], [], [], []⟩ 0 10
      .timeout).2.requestHashes = [] := rfl
  rw [this] at hr
  exact absurd hr (List.not_mem_nil r)

/-- Membership through one stable insertion. -/
theorem insertByTimestamp_mem (r : RequestHashRow) :
    ∀ (l : List RequestHashRow) (a : RequestHashRow),
      a ∈ insertByTimestamp r l ↔ a = r ∨ a ∈ l
  | [], a => by simp [insertByTimestamp]
  | x :: xs, a => by
    by_cases h : x.timestamp ≤ r.timestamp
    · simp only [insertByTimestamp, if_pos h, List.mem_cons, insertByTimestamp_mem r xs a]
      tauto
    · simp only [insertByTimestamp, if_neg h, List.mem_cons]

/-- Length through one stable insertion. -/
theorem insertByTimestamp_length (r : RequestHashRow) :
    ∀ l : List RequestHashRow, (insertByTimestamp r l).length = l.length + 1
  | [] => rfl
  | x :: xs => by
    by_cases h : x.timestamp ≤ r.timestamp <;>
      simp [insertByTimestamp, h, insertByTimestamp_length r xs]

/-- One stable insertion preserves timestamp sortedness. -/
theorem insertByTimestamp_sorted (r : RequestHashRow) :
    ∀ l : List RequestHashRow,
      l.Pairwise (fun x y => x.timestamp ≤ y.timestamp) →
      (insertByTimestamp r l).Pairwise (fun x y => x.timestamp ≤ y.timestamp)
  | [], _ => List.pairwise_singleton _ _
  | x :: xs, hsort => by
    rw [List.pairwise_cons] at hsort
    by_cases h : x.timestamp ≤ r.timestamp
    · rw [insertByTimestamp, if_pos h, List.pairwise_cons]
      refine ⟨?_, insertByTimestamp_sorted r xs hsort.2⟩
      intro a ha
      rcases (insertByTimestamp_mem r xs a).mp ha with rfl | ha
      · exact h
      · exact hsort.1 a ha
    · rw [insertByTimestamp, if_neg h, List.pairwise_cons]
      have hrx : r.timestamp ≤ x.timestamp := le_of_not_le h
      refine ⟨?_, List.pairwise_cons.mpr hsort⟩
      intro a ha
      rcases List.mem_cons.mp ha with rfl | ha
      · exact hrx
      · exact le_trans hrx (hsort.1 a ha)

/-- Membership through the fold that implements the stable sort. -/
theorem sortFold_mem : ∀ (l acc : List RequestHashRow) (a : RequestHashRow),
    a ∈ l.foldl (fun acc r => insertByTimestamp r acc) acc ↔ a ∈ l ∨ a ∈ acc
  | [], acc, a => by simp
  | x :: xs, acc, a => by
    simp only [List.foldl_cons, sortFold_mem xs (insertByTimestamp x acc) a,
      insertByTimestamp_mem, List.mem_cons]
    tauto

/-- Length through the sorting fold. -/
theorem sortFold_length : ∀ (l acc : List RequestHashRow),
    (l.foldl (fun acc r => insertByTimestamp r acc) acc).length = l.length + acc.length
  | [], acc => by simp
  | x :: xs, acc => by
    simp only [List.foldl_cons, sortFold_length xs (insertByTimestamp x acc),
      insertByTimestamp_length]
    simp only [List.length_cons]
    omega

/-- Sortedness through the sorting fold. -/
theorem sortFold_sorted : ∀ (l acc : List RequestHashRow),
    acc.Pairwise (fun x y => x.timestamp ≤ y.timestamp) →
    (l.foldl (fun acc r => insertByTimestamp r acc) acc).Pairwise
      (fun x y => x.timestamp ≤ y.timestamp)
  | [], _, h => h
  | x :: xs, acc, h => sortFold_sorted xs (insertByTimestamp x acc) (insertByTimestamp_sorted x acc h)

/-- `sortByTimestamp` permutes its input's members. -/
theorem sortByTimestamp_mem (l : List RequestHashRow) (a : RequestHashRow) :
    a ∈ sortByTimestamp l ↔ a ∈ l := by
  unfold sortByTimestamp
  rw [sortFold_mem]
  simp

/-- `sortByTimestamp` preserves length. -/
theorem sortByTimestamp_length (l : List RequestHashRow) :
    (sortByTimestamp l).length = l.length := by
  unfold sortByTimestamp
  rw [sortFold_length]
  simp

/-- `sortByTimestamp` sorts by timestamp. -/
theorem sortByTimestamp_sorted (l : List RequestHashRow) :
    (sortByTimestamp l).Pairwise (fun x y => x.timestamp ≤ y.timestamp) :=
  sortFold_sorted l [] (List.Pairwise.nil)

/-- C2 (amended).  Closing a Merkle batch selects the oldest `BATCH_SIZE`
unbatched rows ordered by timestamp ascending — rows that tie on the
timestamp keep the storage enumeration order, there is no id tie-breaker —
aborts when fewer than `BATCH_SIZE` unbatched rows exist, and otherwise
creates a `MerkleRoot` row whose `start_time`/`end_time` are the first/last
selected timestamps and whose `request_count` is `BATCH_SIZE`, marking
exactly the selected rows with the new batch id. -/
theorem C2_merkle_batch_selection (batchSize newId : Nat) (table : List RequestHashRow)
    (hpos : 1 ≤ batchSize) :
    ((table.filter (fun r => r.merkle_batch_id == none)).length < batchSize →
      compute_and_store_merkle_root batchSize newId table = (none, table))
    ∧ (batchSize ≤ (table.filter (fun r => r.merkle_batch_id == none)).length →
        (selectUnbatched batchSize table).length = batchSize
        ∧ (compute_and_store_merkle_root batchSize newId table).1
            = some ⟨newId,
                build_merkle_tree ((selectUnbatched batchSize table).map (fun r => r.hash)),
                (match selectUnbatched batchSize table with | r :: _ => r.timestamp | [] => 0),
                (match (selectUnbatched batchSize table).getLast? with
                 | some r => r.timestamp | none => 0),
                batchSize⟩
        ∧ (selectUnbatched batchSize table).Pairwise (fun x y => x.timestamp ≤ y.timestamp)
        ∧ (∀ s ∈ selectUnbatched batchSize table, s ∈ table ∧ s.merkle_batch_id = none)
        ∧ (∀ r ∈ table, r.merkle_batch_id = none → r ∉ selectUnbatched batchSize table →
            ∀ s ∈ selectUnbatched batchSize table, s.timestamp ≤ r.timestamp)
        ∧ (∀ r ∈ table, ((selectUnbatched batchSize table).any (fun s => s.id == r.id)) = true →
            { r with merkle_batch_id := some newId }
              ∈ (compute_and_store_merkle_root batchSize newId table).2)
        ∧ (∀ r ∈ table, ((selectUnbatched batchSize table).any (fun s => s.id == r.id)) = false →
            r ∈ (compute_and_store_merkle_root batchSize newId table).2)) := by
  have hsellen : (selectUnbatched batchSize table).length
      = min batchSize (table.filter (fun r => r.merkle_batch_id == none)).length := by
    unfold selectUnbatched
    rw [List.length_take, sortByTimestamp_length]
  constructor
  · intro hlt
    have hl : (selectUnbatched batchSize table).length < batchSize := by omega
    unfold compute_and_store_merkle_root
    rw [if_pos hl]
  · intro hge
    have hlen : (selectUnbatched batchSize table).length = batchSize := by omega
    have hnotlt : ¬ (selectUnbatched batchSize table).length < batchSize := by omega
    have hmemsel : ∀ s ∈ selectUnbatched batchSize table, s ∈ table ∧ s.merkle_batch_id = none := by
      intro s hs
      have hsorted : s ∈ sortByTimestamp (table.filter (fun r => r.merkle_batch_id == none)) :=
        (List.take_sublist _ _).subset hs
      have hunb := (sortByTimestamp_mem _ s).mp hsorted
      have := List.mem_filter.mp hunb
      exact ⟨this.1, beq_iff_eq.mp this.2⟩
    refine ⟨hlen, ?_, ?_, hmemsel, ?_, ?_, ?_⟩
    · unfold compute_and_store_merkle_root
      rw [if_neg hnotlt]
      simp [hlen]
    · exact (sortByTimestamp_sorted _).sublist (List.take_sublist _ _)
    · intro r hr hrnone hrnotsel s hs
      have hrunb : r ∈ table.filter (fun r => r.merkle_batch_id == none) :=
        List.mem_filter.mpr ⟨hr, beq_iff_eq.mpr hrnone⟩
      have hrsorted := (sortByTimestamp_mem _ r).mpr hrunb
      have hsplit := (List.take_append_drop batchSize
        (sortByTimestamp (table.filter (fun r => r.merkle_batch_id == none)))).symm
      have hsorted := sortByTimestamp_sorted (table.filter (fun r => r.merkle_batch_id == none))
      rw [hsplit] at hsorted hrsorted
      have hcross := (List.pairwise_append.mp hsorted).2.2
      rcases List.mem_append.mp hrsorted with hleft | hright
      · exact absurd hleft hrnotsel
      · exact hcross s hs r hright
    · intro r hr hany
      unfold compute_and_store_merkle_root
      rw [if_neg hnotlt]
      have heq : (fun x : RequestHashRow =>
          if (selectUnbatched batchSize table).any (fun s => s.id == x.id)
          then { x with merkle_batch_id := some newId } else x) r
          = { r with merkle_batch_id := some newId } := by
        simp [hany]
      exact heq ▸ List.mem_map_of_mem _ hr
    · intro r hr hany
      unfold compute_and_store_merkle_root
      rw [if_neg hnotlt]
      have heq : (fun x : RequestHashRow =>
          if (selectUnbatched batchSize table).any (fun s => s.id == x.id)
          then { x with merkle_batch_id := some newId } else x) r = r := by
        simp [hany]
      exact heq ▸ List.mem_map_of_mem _ hr

/-- C2 (counterexample to the claim as stated).  Two unbatched rows that tie
on the timestamp but are stored in the order id 2, id 1 are selected in that
storage order: the query has no id tie-breaker, so the selection is not
ordered by (timestamp, id). -/
theorem C2_counterexample :
    ¬ List.Pairwise (fun x y : RequestHashRow =>
        x.timestamp < y.timestamp ∨ (x.timestamp = y.timestamp ∧ x.id ≤ y.id))
      (selectUnbatched 2
        [⟨2, 1, 1, 5, "/a", 200, "h2", none⟩, ⟨1, 1, 1, 5, "/b", 200, "h1", none⟩]) := by
  decide

/-- Witness for `C2_merkle_batch_selection`: a concrete two-row table closed
with batch size 2. -/
theorem C2_merkle_batch_selection_witness :
    (1 ≤ 2
      ∧ 2 ≤ (([⟨1, 1, 1, 5, "/a", 200, "h1", none⟩, ⟨2, 1, 1, 3, "/b", 200, "h2", none⟩] :
          List RequestHashRow).filter (fun r => r.merkle_batch_id == none)).length)
    ∧ (selectUnbatched 2
        [⟨1, 1, 1, 5, "/a", 200, "h1", none⟩, ⟨2, 1, 1, 3, "/b", 200, "h2", none⟩]).length = 2
    ∧ (selectUnbatched 2
        [⟨1, 1, 1, 5, "/a", 200, "h1", none⟩, ⟨2, 1, 1, 3, "/b", 200, "h2", none⟩]).Pairwise
        (fun x y => x.timestamp ≤ y.timestamp) := by
  have h := (C2_merkle_batch_selection 2 1
    [⟨1, 1, 1, 5, "/a", 200, "h1", none⟩, ⟨2, 1, 1, 3, "/b", 200, "h2", none⟩]
    (by decide)).2 (by decide)
  exact ⟨⟨by decide, by decide⟩, h.1, h.2.2.1⟩

/-- After authentication, service lookup and scope authorization succeed,
the GET pipeline is the bot-decision / rate-limit / dispatch chain. -/
theorem proxy_get_run (db : Db) (st : RateStore) (req : PReq) (now : ℚ) (batchSize : Nat)
    (up : Upstream) (u : UserRow) (service : ServiceRow)
    (hauth : get_current_user db (headerGet req "x-api-key") = .ok u)
    (hsvc : db.services.find? (fun s => s.id == req.serviceId) = some service)
    (hval : validate_api_key_for_service ((headerGet req "x-api-key").getD "")
      req.serviceId db = true) :
    proxy_get db st req now batchSize up
      = (let api_key := (headerGet req "x-api-key").getD ""
         let bot_score := calculate_bot_score ((headerGet req "user-agent").getD "")
           (req.headers.map (fun h => h.1)) (recentUsageCount db api_key now)
         let block_enabled :=
           match db.serviceConfigs.find? (fun c => c.service_id == req.serviceId) with
           | some c => c.block_bots_enabled
           | none => false
         let decision := should_block bot_score block_enabled 0.7
         let db1 := { db with botLogs := db.botLogs ++
           [⟨req.serviceId, api_key, bot_score, classify_traffic bot_score,
             (headerGet req "user-agent").getD "", decision.2⟩] }
         if decision.1 then ⟨403, db1, st, false, false⟩
         else
           let rl := check_rate_limit db st api_key now
           if ¬ rl.1 then ⟨429, db1, rl.2, true, false⟩
           else
             let pr := proxy_request service req api_key db1 now batchSize up
             ⟨pr.1, pr.2, rl.2, true, true⟩) := by
  unfold proxy_get
  simp only [hauth, hsvc, hval, Bool.not_true, if_false]
  rw [if_neg (by simp)]
  rfl

/-- A key whose effective capacity is at least one is admitted on a fresh
(empty) bucket store. -/
theorem check_rate_limit_fresh_allows (db : Db) (k : String) (now : ℚ)
    (hcap : 1 ≤ (resolveRateConfig db k).1) :
    (check_rate_limit db [] k now).1 = true := by
  unfold check_rate_limit
  simp only [storeLookup, List.find?_nil]
  unfold takeOne initBucket
  have hc : (1 : ℚ) ≤ ((resolveRateConfig db k).1 : ℚ) := by
    exact_mod_cast hcap
  simp only [sub_self, zero_mul, add_zero, min_self]
  rw [if_pos hc]

/-- The timeout arm of the dispatcher returns 504 with the database
untouched. -/
theorem proxy_request_on_timeout (service : ServiceRow) (req : PReq) (k : String) (db : Db)
    (now : ℚ) (batchSize : Nat)
    (hscheme : isPrefixOfChars "http://".toList (pyStrip service.target_url.toList) = true
      ∨ isPrefixOfChars "https://".toList (pyStrip service.target_url.toList) = true) :
    proxy_request service req k db now batchSize .timeout = (504, db) := by
  have hne : ¬ pyStrip service.target_url.toList = [] := by
    intro h
    rcases hscheme with hs | hs <;> rw [h] at hs <;> exact absurd hs (by decide)
  simp only [proxy_request, if_neg hne, if_neg (not_not_intro hscheme)]

/-- C7.  The aggregate bot score is the clamped weighted sum of the three
sub-scores, and on the spec's scenario — user agent `python-requests/2.28.0`,
no usage in the last 60 s, minimal headers — the sub-scores are 0.9 / 0.0 /
1.0, the aggregate is 0.65, the classification is suspicious, and with
blocking enabled at threshold 0.7 the action is flagged and the request
proceeds through the rate limiter to the upstream dispatch. -/
theorem C7_bot_classification :
    (∀ (ua : String) (headerKeys : List String) (n : Nat),
      calculate_bot_score ua headerKeys n
        = min 1 (max 0 (analyze_user_agent ua * 0.5
            + analyze_request_rate_of_count n * 0.3 + analyze_header_entropy headerKeys * 0.2)))
    ∧ analyze_user_agent "python-requests/2.28.0" = 0.9
    ∧ analyze_request_rate_of_count 0 = 0
    ∧ analyze_header_entropy ["user-agent"] = 1
    ∧ calculate_bot_score "python-requests/2.28.0" ["user-agent"] 0 = 0.65
    ∧ classify_traffic 0.65 = "suspicious"
    ∧ should_block 0.65 true 0.7 = (false, "flagged")
    ∧ ((proxy_get ⟨[⟨1, "u", "UK"⟩], [⟨1, "s", "http://u.example", 1, false⟩],
          [⟨1, "K", 1, true, none, none, 0, 0⟩], [], [⟨1, 1, true, 0.7⟩], [], [], []⟩ []
          ⟨1, [("x-api-key", "K"), ("user-agent", "python-requests/2.28.0")], "/p"⟩ 0 10
          .timeout).status = 504
        ∧ (proxy_get ⟨[⟨1, "u", "UK"⟩], [⟨1, "s", "http://u.example", 1, false⟩],
          [⟨1, "K", 1, true, none, none, 0, 0⟩], [], [⟨1, 1, true, 0.7⟩], [], [], []⟩ []
          ⟨1, [("x-api-key", "K"), ("user-agent", "python-requests/2.28.0")], "/p"⟩ 0 10
          .timeout).rateLimiterConsulted = true
        ∧ (proxy_get ⟨[⟨1, "u", "UK"⟩], [⟨1, "s", "http://u.example", 1, false⟩],
          [⟨1, "K", 1, true, none, none, 0, 0⟩], [], [⟨1, 1, true, 0.7⟩], [], [], []⟩ []
          ⟨1, [("x-api-key", "K"), ("user-agent", "python-requests/2.28.0")], "/p"⟩ 0 10
          .timeout).dispatched = true
        ∧ (proxy_get ⟨[⟨1, "u", "UK"⟩], [⟨1, "s", "http://u.example", 1, false⟩],
          [⟨1, "K", 1, true, none, none, 0, 0⟩], [], [⟨1, 1, true, 0.7⟩], [], [], []⟩ []
          ⟨1, [("x-api-key", "K"), ("user-agent", "python-requests/2.28.0")], "/p"⟩ 0 10
          .timeout).db.botLogs.map (fun l => l.action_taken) = ["flagged"]) := by
  have hua : analyze_user_agent "python-requests/2.28.0" = 0.9 := by
    unfold analyze_user_agent
    rw [if_neg (by decide), if_pos (by decide)]
  have hhd1 : analyze_header_entropy ["user-agent"] = 1 := by
    have hlen : (EXPECTED_BROWSER_HEADERS.filter (fun h =>
        (["user-agent"].map (fun k => String.mk (lowerChars k.toList))).contains h)).length
        = 1 := by
      decide
    unfold analyze_header_entropy
    rw [if_pos (by decide), hlen]
    rw [show EXPECTED_BROWSER_HEADERS.length = 5 from rfl]
    rw [min_def]
    norm_num
  have hhd2 : analyze_header_entropy ["x-api-key", "user-agent"] = 1 := by
    have hlen : (EXPECTED_BROWSER_HEADERS.filter (fun h =>
        (["x-api-key", "user-agent"].map
          (fun k => String.mk (lowerChars k.toList))).contains h)).length = 1 := by
      decide
    unfold analyze_header_entropy
    rw [if_pos (by decide), hlen]
    rw [show EXPECTED_BROWSER_HEADERS.length = 5 from rfl]
    rw [min_def]
    norm_num
  have hrate : analyze_request_rate_of_count 0 = 0 := by
    norm_num [analyze_request_rate_of_count]
  have hscore1 : calculate_bot_score "python-requests/2.28.0" ["user-agent"] 0 = 0.65 := by
    unfold calculate_bot_score
    rw [hua, hhd1, hrate, min_def, max_def]
    norm_num
  have hscore2 : calculate_bot_score "python-requests/2.28.0" ["x-api-key", "user-agent"] 0
      = 0.65 := by
    unfold calculate_bot_score
    rw [hua, hhd2, hrate, min_def, max_def]
    norm_num
  have hclass : classify_traffic 0.65 = "suspicious" := by
    unfold classify_traffic
    rw [if_neg (by norm_num), if_pos (by norm_num)]
  have hdec : should_block 0.65 true 0.7 = (false, "flagged") := by
    unfold should_block classify_traffic
    rw [if_neg (by norm_num)]
    rw [if_neg (by norm_num), if_pos (by norm_num)]
  have hrl := check_rate_limit_fresh_allows
    ⟨[⟨1, "u", "UK"⟩], [⟨1, "s", "http://u.example", 1, false⟩],
     [⟨1, "K", 1, true, none, none, 0, 0⟩], [], [⟨1, 1, true, 0.7⟩], [], [], []⟩ "K" 0 (by decide)
  have hrun := proxy_get_run
    ⟨[⟨1, "u", "UK"⟩], [⟨1, "s", "http://u.example", 1, false⟩],
     [⟨1, "K", 1, true, none, none, 0, 0⟩], [], [⟨1, 1, true, 0.7⟩], [], [], []⟩ []
    ⟨1, [("x-api-key", "K"), ("user-agent", "python-requests/2.28.0")], "/p"⟩ 0 10
    .timeout ⟨1, "u", "UK"⟩ ⟨1, "s", "http://u.example", 1, false⟩ rfl rfl rfl
  simp only [show (headerGet (⟨1, [("x-api-key", "K"),
        ("user-agent", "python-requests/2.28.0")], "/p"⟩ : PReq) "x-api-key").getD ""
      = "K" from rfl,
    show (headerGet (⟨1, [("x-api-key", "K"),
        ("user-agent", "python-requests/2.28.0")], "/p"⟩ : PReq) "user-agent").getD ""
      = "python-requests/2.28.0" from rfl,
    show (List.map (fun h => h.1) [(("x-api-key" : String), ("K" : String)),
        ("user-agent", "python-requests/2.28.0")]) = ["x-api-key", "user-agent"] from rfl,
    show recentUsageCount ⟨[⟨1, "u", "UK"⟩], [⟨1, "s", "http://u.example", 1, false⟩],
        [⟨1, "K", 1, true, none, none, 0, 0⟩], [], [⟨1, 1, true, 0.7⟩], [], [], []⟩ "K" 0
      = 0 from rfl,
    show (match List.find? (fun c => c.service_id == (1 : Nat))
        ([⟨1, 1, true, 0.7⟩] : List ServiceConfigRow) with
      | some c => c.block_bots_enabled
      | none => false) = true from rfl,
    hscore2, hdec, List.nil_append, hrl, not_true, if_false,
    proxy_request_on_timeout ⟨1, "s", "http://u.example", 1, false⟩
      ⟨1, [("x-api-key", "K"), ("user-agent", "python-requests/2.28.0")], "/p"⟩ "K" _ 0 10
      (Or.inl (by decide))] at hrun
  rw [hrun]
  exact ⟨fun ua headerKeys n => rfl, hua, hrate, hhd1, hscore1, hclass, hdec,
    rfl, rfl, rfl, rfl⟩

/-- C8.  The blocking decision: with blocking disabled the request is never
blocked and is flagged exactly when classified as a bot; with blocking
enabled it is blocked iff the score reaches the threshold (in which case the
action is "blocked"), a below-threshold suspicious request is flagged and a
below-threshold human request is allowed; and a blocked request terminates
the GET pipeline with 403 before the rate limiter and the upstream dispatch
run. -/
theorem C8_blocking_decision :
    (∀ (s thr : ℚ), should_block s false thr
        = (false, if classify_traffic s = "bot" then "flagged" else "allowed"))
    ∧ (∀ (s thr : ℚ), ((should_block s true thr).1 = true ↔ thr ≤ s))
    ∧ (∀ (s thr : ℚ), (should_block s true thr).1 = true →
        should_block s true thr = (true, "blocked"))
    ∧ (∀ (s thr : ℚ), ¬ thr ≤ s → classify_traffic s = "suspicious" →
        should_block s true thr = (false, "flagged"))
    ∧ (∀ (s thr : ℚ), ¬ thr ≤ s → classify_traffic s = "human" →
        should_block s true thr = (false, "allowed"))
    ∧ (∀ (db : Db) (st : RateStore) (req : PReq) (now : ℚ) (batchSize : Nat)
        (up : Upstream) (u : UserRow) (service : ServiceRow),
        get_current_user db (headerGet req "x-api-key") = .ok u →
        db.services.find? (fun s => s.id == req.serviceId) = some service →
        validate_api_key_for_service ((headerGet req "x-api-key").getD "")
          req.serviceId db = true →
        (should_block
          (calculate_bot_score ((headerGet req "user-agent").getD "")
            (req.headers.map (fun h => h.1))
            (recentUsageCount db ((headerGet req "x-api-key").getD "") now))
          (match db.serviceConfigs.find? (fun c => c.service_id == req.serviceId) with
           | some c => c.block_bots_enabled
           | none => false) 0.7).1 = true →
        (proxy_get db st req now batchSize up).status = 403
        ∧ (proxy_get db st req now batchSize up).rateLimiterConsulted = false
        ∧ (proxy_get db st req now batchSize up).dispatched = false) := by
  refine ⟨?_, ?_, ?_, ?_, ?_, ?_⟩
  · intro s thr
    unfold should_block
    rw [if_pos (by simp)]
    by_cases h : classify_traffic s = "bot" <;> simp [h]
  · intro s thr
    unfold should_block
    rw [if_neg (by simp)]
    by_cases h : thr ≤ s
    · simp [h]
    · rw [if_neg h]
      by_cases hc : classify_traffic s = "suspicious" <;> simp [hc, h]
  · intro s thr h
    unfold should_block at h ⊢
    rw [if_neg (by simp)] at h ⊢
    by_cases ht : thr ≤ s
    · rw [if_pos ht]
    · rw [if_neg ht] at h
      by_cases hc : classify_traffic s = "suspicious" <;> simp [hc] at h
  · intro s thr h1 h2
    unfold should_block
    rw [if_neg (by simp), if_neg h1, if_pos h2]
  · intro s thr h1 h2
    unfold should_block
    rw [if_neg (by simp), if_neg h1, if_neg (by rw [h2]; decide)]
  · intro db st req now batchSize up u service hauth hsvc hval hblock
    rw [proxy_get_run db st req now batchSize up u service hauth hsvc hval]
    simp only []
    rw [if_pos hblock]
    exact ⟨rfl, rfl, rfl⟩

/-- Witness for `C8_blocking_decision`: a blocked request — curl user agent,
six usage rows in the window, blocking enabled — answers 403 without
consulting the rate limiter. -/
theorem C8_blocking_decision_witness :
    (get_current_user
        ⟨[⟨1, "u", "UK"⟩], [⟨1, "s", "http://u.example", 1, false⟩],
         [⟨1, "K", 1, true, none, none, 0, 0⟩],
         [⟨1, 1, "K", 0⟩, ⟨2, 1, "K", 0⟩, ⟨3, 1, "K", 0⟩, ⟨4, 1, "K", 0⟩, ⟨5, 1, "K", 0⟩,
          ⟨6, 1, "K", 0⟩],
         [⟨1, 1, true, 0.7⟩], [], [], []⟩
        (headerGet (⟨1, [("x-api-key", "K"), ("user-agent", "curl/7.68.0")], "/p"⟩ : PReq)
          "x-api-key") = .ok ⟨1, "u", "UK"⟩)
    ∧ ((should_block
        (calculate_bot_score "curl/7.68.0" ["x-api-key", "user-agent"] 6) true 0.7).1 = true)
    ∧ (proxy_get
        ⟨[⟨1, "u", "UK"⟩], [⟨1, "s", "http://u.example", 1, false⟩],
         [⟨1, "K", 1, true, none, none, 0, 0⟩],
         [⟨1, 1, "K", 0⟩, ⟨2, 1, "K", 0⟩, ⟨3, 1, "K", 0⟩, ⟨4, 1, "K", 0⟩, ⟨5, 1, "K", 0⟩,
          ⟨6, 1, "K", 0⟩],
         [⟨1, 1, true, 0.7⟩], [], [], []⟩ []
        ⟨1, [("x-api-key", "K"), ("user-agent", "curl/7.68.0")], "/p"⟩ 0 10
        (Upstream.response 200)).status = 403
    ∧ (proxy_get
        ⟨[⟨1, "u", "UK"⟩], [⟨1, "s", "http://u.example", 1, false⟩],
         [⟨1, "K", 1, true, none, none, 0, 0⟩],
         [⟨1, 1, "K", 0⟩, ⟨2, 1, "K", 0⟩, ⟨3, 1, "K", 0⟩, ⟨4, 1, "K", 0⟩, ⟨5, 1, "K", 0⟩,
          ⟨6, 1, "K", 0⟩],
         [⟨1, 1, true, 0.7⟩], [], [], []⟩ []
        ⟨1, [("x-api-key", "K"), ("user-agent", "curl/7.68.0")], "/p"⟩ 0 10
        (Upstream.response 200)).rateLimiterConsulted = false := by
  have hcount : recentUsageCount
      ⟨[⟨1, "u", "UK"⟩], [⟨1, "s", "http://u.example", 1, false⟩],
       [⟨1, "K", 1, true, none, none, 0, 0⟩],
       [⟨1, 1, "K", 0⟩, ⟨2, 1, "K", 0⟩, ⟨3, 1, "K", 0⟩, ⟨4, 1, "K", 0⟩, ⟨5, 1, "K", 0⟩,
        ⟨6, 1, "K", 0⟩],
       [⟨1, 1, true, 0.7⟩], [], [], []⟩ "K" 0 = 6 := by
    unfold recentUsageCount
    norm_num [List.filter]
  have hscore : calculate_bot_score "curl/7.68.0" ["x-api-key", "user-agent"] 6 = 0.74 := by
    unfold calculate_bot_score
    rw [show analyze_user_agent "curl/7.68.0" = 0.9 from by
      unfold analyze_user_agent
      rw [if_neg (by decide), if_pos (by decide)]]
    rw [show analyze_request_rate_of_count 6 = 0.3 from by
      unfold analyze_request_rate_of_count
      norm_num]
    rw [show analyze_header_entropy ["x-api-key", "user-agent"] = 1 from by
      have hlen : (EXPECTED_BROWSER_HEADERS.filter (fun h =>
          (["x-api-key", "user-agent"].map
            (fun k => String.mk (lowerChars k.toList))).contains h)).length = 1 := by decide
      unfold analyze_header_entropy
      rw [if_pos (by decide), hlen, show EXPECTED_BROWSER_HEADERS.length = 5 from rfl, min_def]
      norm_num]
    rw [min_def, max_def]
    norm_num
  have hsb : (should_block
      (calculate_bot_score "curl/7.68.0" ["x-api-key", "user-agent"] 6) true 0.7).1 = true := by
    rw [hscore]
    unfold should_block
    rw [if_neg (by simp), if_pos (by norm_num)]
  have hblock : (should_block
      (calculate_bot_score
        ((headerGet (⟨1, [("x-api-key", "K"), ("user-agent", "curl/7.68.0")], "/p"⟩ : PReq)
          "user-agent").getD "")
        ((⟨1, [("x-api-key", "K"), ("user-agent", "curl/7.68.0")], "/p"⟩ : PReq).headers.map
          (fun h => h.1))
        (recentUsageCount
          ⟨[⟨1, "u", "UK"⟩], [⟨1, "s", "http://u.example", 1, false⟩],
           [⟨1, "K", 1, true, none, none, 0, 0⟩],
           [⟨1, 1, "K", 0⟩, ⟨2, 1, "K", 0⟩, ⟨3, 1, "K", 0⟩, ⟨4, 1, "K", 0⟩, ⟨5, 1, "K", 0⟩,
            ⟨6, 1, "K", 0⟩],
           [⟨1, 1, true, 0.7⟩], [], [], []⟩
          ((headerGet (⟨1, [("x-api-key", "K"), ("user-agent", "curl/7.68.0")], "/p"⟩ : PReq)
            "x-api-key").getD "") 0))
      (match (⟨[⟨1, "u", "UK"⟩], [⟨1, "s", "http://u.example", 1, false⟩],
           [⟨1, "K", 1, true, none, none, 0, 0⟩],
           [⟨1, 1, "K", 0⟩, ⟨2, 1, "K", 0⟩, ⟨3, 1, "K", 0⟩, ⟨4, 1, "K", 0⟩, ⟨5, 1, "K", 0⟩,
            ⟨6, 1, "K", 0⟩],
           [⟨1, 1, true, 0.7⟩], [], [], []⟩ : Db).serviceConfigs.find?
          (fun c => c.service_id == (⟨1, [("x-api-key", "K"), ("user-agent", "curl/7.68.0")],
            "/p"⟩ : PReq).serviceId) with
       | some c => c.block_bots_enabled
       | none => false) 0.7).1 = true := by
    rw [show (headerGet (⟨1, [("x-api-key", "K"), ("user-agent", "curl/7.68.0")], "/p"⟩ : PReq)
        "user-agent").getD "" = "curl/7.68.0" from rfl]
    rw [show ((⟨1, [("x-api-key", "K"), ("user-agent", "curl/7.68.0")], "/p"⟩ : PReq).headers.map
        (fun h => h.1)) = ["x-api-key", "user-agent"] from rfl]
    rw [show (headerGet (⟨1, [("x-api-key", "K"), ("user-agent", "curl/7.68.0")], "/p"⟩ : PReq)
        "x-api-key").getD "" = "K" from rfl]
    rw [hcount]
    rw [show (match (⟨[⟨1, "u", "UK"⟩], [⟨1, "s", "http://u.example", 1, false⟩],
           [⟨1, "K", 1, true, none, none, 0, 0⟩],
           [⟨1, 1, "K", 0⟩, ⟨2, 1, "K", 0⟩, ⟨3, 1, "K", 0⟩, ⟨4, 1, "K", 0⟩, ⟨5, 1, "K", 0⟩,
            ⟨6, 1, "K", 0⟩],
           [⟨1, 1, true, 0.7⟩], [], [], []⟩ : Db).serviceConfigs.find?
          (fun c => c.service_id == (⟨1, [("x-api-key", "K"), ("user-agent", "curl/7.68.0")],
            "/p"⟩ : PReq).serviceId) with
       | some c => c.block_bots_enabled
       | none => false) = true from rfl]
    exact hsb
  have h := C8_blocking_decision.2.2.2.2.2
    ⟨[⟨1, "u", "UK"⟩], [⟨1, "s", "http://u.example", 1, false⟩],
     [⟨1, "K", 1, true, none, none, 0, 0⟩],
     [⟨1, 1, "K", 0⟩, ⟨2, 1, "K", 0⟩, ⟨3, 1, "K", 0⟩, ⟨4, 1, "K", 0⟩, ⟨5, 1, "K", 0⟩,
      ⟨6, 1, "K", 0⟩],
     [⟨1, 1, true, 0.7⟩], [], [], []⟩ []
    ⟨1, [("x-api-key", "K"), ("user-agent", "curl/7.68.0")], "/p"⟩ 0 10
    (Upstream.response 200) ⟨1, "u", "UK"⟩ ⟨1, "s", "http://u.example", 1, false⟩
    rfl rfl rfl hblock
  exact ⟨rfl, hsb, h.1, h.2.1⟩

/-- The base64 alphabet decodes its own encoding. -/
theorem b64DecChar_encChar : ∀ n, n < 64 → b64DecChar (b64EncChar n) = some n := by decide

/-- Alphabet characters are never the padding character. -/
theorem b64EncChar_ne_eq : ∀ n, n < 64 → ¬ b64EncChar n = '=' := by decide

/-- Base64 decoding inverts encoding on byte lists. -/
theorem b64decode_encode : ∀ bs : List Nat, (∀ b ∈ bs, b < 256) →
    b64decode (b64encode bs) = some bs
  | [], _ => rfl
  | [a], h => by
    have ha : a < 256 := h a (by simp)
    have h1 := b64DecChar_encChar (a / 4) (by omega)
    have h2 := b64DecChar_encChar (a % 4 * 16) (by omega)
    simp only [b64encode, b64decode, if_pos rfl, h1, h2, and_self, if_true]
    have e1 : a / 4 * 4 + a % 4 * 16 / 16 = a := by omega
    rw [e1]
  | [a, b], h => by
    have ha : a < 256 := h a (by simp)
    have hb : b < 256 := h b (by simp)
    have h1 := b64DecChar_encChar (a / 4) (by omega)
    have h2 := b64DecChar_encChar (a % 4 * 16 + b / 16) (by omega)
    have h3 := b64DecChar_encChar (b % 16 * 4) (by omega)
    have hne := b64EncChar_ne_eq (b % 16 * 4) (by omega)
    simp only [b64encode, b64decode, if_neg hne, if_pos rfl, if_true, h1, h2, h3]
    have e1 : a / 4 * 4 + (a % 4 * 16 + b / 16) / 16 = a := by omega
    have e2 : (a % 4 * 16 + b / 16) % 16 * 16 + b % 16 * 4 / 4 = b := by omega
    rw [e1, e2]
  | a :: b :: c :: rest, h => by
    have ha : a < 256 := h a (by simp)
    have hb : b < 256 := h b (by simp)
    have hc : c < 256 := h c (by simp)
    have h1 := b64DecChar_encChar (a / 4) (by omega)
    have h2 := b64DecChar_encChar (a % 4 * 16 + b / 16) (by omega)
    have h3 := b64DecChar_encChar (b % 16 * 4 + c / 64) (by omega)
    have h4 := b64DecChar_encChar (c % 64) (by omega)
    have hne3 := b64EncChar_ne_eq (b % 16 * 4 + c / 64) (by omega)
    have hne4 := b64EncChar_ne_eq (c % 64) (by omega)
    have hrec := b64decode_encode rest (fun x hx => h x (by simp [hx]))
    simp only [b64encode, b64decode, if_neg hne3, if_neg hne4, h1, h2, h3, h4, hrec]
    have e1 : a / 4 * 4 + (a % 4 * 16 + b / 16) / 16 = a := by omega
    have e2 : (a % 4 * 16 + b / 16) % 16 * 16 + (b % 16 * 4 + c / 64) / 4 = b := by omega
    have e3 : (b % 16 * 4 + c / 64) % 4 * 64 + c % 64 = c := by omega
    rw [e1, e2, e3]

/-- Every byte of a decimal rendering is an ASCII digit. -/
theorem natToDecBytes_digits (n : Nat) : ∀ b ∈ natToDecBytes n, 48 ≤ b ∧ b ≤ 57 := by
  unfold natToDecBytes
  by_cases h : n = 0
  · rw [if_pos h]
    intro b hb
    simp only [List.mem_singleton] at hb
    omega
  · rw [if_neg h]
    intro b hb
    simp only [List.mem_map, List.mem_reverse] at hb
    obtain ⟨d, hd, rfl⟩ := hb
    have := Nat.digits_lt_base (by norm_num) hd
    omega

/-- Decimal renderings are nonempty. -/
theorem natToDecBytes_ne_nil (n : Nat) : natToDecBytes n ≠ [] := by
  unfold natToDecBytes
  by_cases h : n = 0
  · rw [if_pos h]; simp
  · rw [if_neg h]
    simp only [ne_eq, List.map_eq_nil_iff, List.reverse_eq_nil_iff]
    exact Nat.digits_ne_nil_iff_ne_zero.mpr h

/-- Big-endian digit accumulation inverts `Nat.digits`. -/
theorem foldr_digits_eq_ofDigits : ∀ l : List Nat,
    l.foldr (fun d a => a * 10 + d) 0 = Nat.ofDigits 10 l
  | [] => by simp [Nat.ofDigits]
  | d :: rest => by
    simp only [List.foldr_cons, foldr_digits_eq_ofDigits rest, Nat.ofDigits_cons]
    ring

/-- Parsing inverts the decimal rendering. -/
theorem parseNatBytes_natToDecBytes (n : Nat) : parseNatBytes (natToDecBytes n) = some n := by
  unfold parseNatBytes
  rw [if_pos ⟨natToDecBytes_ne_nil n, by
    rw [List.all_eq_true]
    intro b hb
    have := natToDecBytes_digits n b hb
    simp only [Bool.and_eq_true, decide_eq_true_eq]
    omega⟩]
  congr 1
  unfold natToDecBytes
  by_cases h : n = 0
  · rw [if_pos h, h]
    rfl
  · rw [if_neg h]
    rw [List.foldl_map]
    have hsame : ∀ (acc : Nat) (l : List Nat),
        l.foldl (fun acc d => acc * 10 + (d + 48 - 48)) acc
          = l.foldl (fun acc d => acc * 10 + d) acc := by
      intro acc l
      induction l generalizing acc with
      | nil => rfl
      | cons x xs ih => simp only [List.foldl_cons, Nat.add_sub_cancel, ih]
    rw [hsame, List.foldl_reverse]
    rw [show (fun (x : Nat) (y : Nat) => (fun acc d => acc * 10 + d) y x)
      = (fun (d : Nat) (a : Nat) => a * 10 + d) from rfl]
    rw [foldr_digits_eq_ofDigits, Nat.ofDigits_digits]

/-- A pipe-free byte list is one field. -/
theorem splitPipe_no_pipe : ∀ l : List Nat, (∀ b ∈ l, b ≠ 124) → splitPipe l = [l]
  | [], _ => rfl
  | b :: rest, h => by
    simp only [splitPipe]
    rw [if_neg (h b (by simp))]
    rw [splitPipe_no_pipe rest (fun x hx => h x (by simp [hx]))]

/-- Splitting peels one pipe-free field at a pipe. -/
theorem splitPipe_append : ∀ (A : List Nat), (∀ b ∈ A, b ≠ 124) → ∀ rest : List Nat,
    splitPipe (A ++ 124 :: rest) = A :: splitPipe rest
  | [], _, rest => by
    simp only [List.nil_append, splitPipe, if_true]
  | a :: A', h, rest => by
    simp only [List.cons_append, splitPipe, List.append_eq]
    rw [if_neg (h a (by simp))]
    rw [splitPipe_append A' (fun x hx => h x (by simp [hx])) rest]

/-- Decoding inverts encoding for every watermark tuple whose string fields
are pipe-free bytes. -/
theorem decode_generate_watermark (sid kid : Nat) (rid ts : List Nat)
    (hr1 : ∀ b ∈ rid, b < 256) (hr2 : ∀ b ∈ rid, b ≠ 124)
    (ht1 : ∀ b ∈ ts, b < 256) (ht2 : ∀ b ∈ ts, b ≠ 124) :
    decode_watermark (generate_watermark sid kid rid ts) = some ⟨sid, kid, rid, ts⟩ := by
  unfold generate_watermark decode_watermark
  simp only [List.cons_append, List.append_assoc]
  have hbytes : ∀ b ∈ natToDecBytes sid ++ 124 :: (natToDecBytes kid ++
      124 :: (rid ++ 124 :: ts)), b < 256 := by
    rw [List.forall_mem_append]
    refine ⟨fun b hb => by have := natToDecBytes_digits sid b hb; omega, ?_⟩
    rw [List.forall_mem_cons]
    refine ⟨by omega, ?_⟩
    rw [List.forall_mem_append]
    refine ⟨fun b hb => by have := natToDecBytes_digits kid b hb; omega, ?_⟩
    rw [List.forall_mem_cons]
    refine ⟨by omega, ?_⟩
    rw [List.forall_mem_append]
    exact ⟨hr1, List.forall_mem_cons.mpr ⟨by omega, ht1⟩⟩
  rw [b64decode_encode _ hbytes]
  simp only []
  rw [splitPipe_append (natToDecBytes sid)
    (fun b hb => by have := natToDecBytes_digits sid b hb; omega)]
  rw [splitPipe_append (natToDecBytes kid)
    (fun b hb => by have := natToDecBytes_digits kid b hb; omega)]
  rw [splitPipe_append rid hr2]
  rw [splitPipe_no_pipe ts ht2]
  simp only []
  rw [parseNatBytes_natToDecBytes, parseNatBytes_natToDecBytes]

/-- Dict lookup after dict assignment finds the assigned value. -/
theorem getKey_setKey : ∀ (fs : List (List Char × Json)) (k : List Char) (v : Json),
    getKey (setKey fs k v) k = some v
  | [], k, v => by simp [setKey, getKey]
  | (k', v') :: rest, k, v => by
    by_cases h : k' = k
    · simp [setKey, getKey, h]
    · simp only [setKey, if_neg h]
      simp [getKey, h, getKey_setKey rest k v]

/-- Injecting into a JSON object always lets extraction find the watermark
at the top level. -/
theorem extract_inject_obj (fs : List (List Char × Json)) (wm : List Char) :
    extract_watermark_from_json (inject_watermark_json (.obj fs) wm) = some (.str wm) := by
  simp only [inject_watermark_json, extract_watermark_from_json, getKey_setKey]

/-- Injecting into a JSON array wraps it and extraction finds the watermark
in the wrapper object. -/
theorem extract_inject_arr (xs : List Json) (wm : List Char) :
    extract_watermark_from_json (inject_watermark_json (.arr xs) wm) = some (.str wm) := by
  simp only [inject_watermark_json, extract_watermark_from_json]
  rw [show getKey [("data".toList, Json.arr xs), (wmKey, Json.str wm)] wmKey
    = some (Json.str wm) from by
      simp only [getKey]
      rw [if_neg (by decide)]
      simp]

/-- The Boolean prefix test agrees with `List.IsPrefix`. -/
theorem isPrefixOfChars_iff : ∀ p l : List Char, isPrefixOfChars p l = true ↔ p <+: l
  | [], l => by simp [isPrefixOfChars]
  | _ :: _, [] => by
    simp only [isPrefixOfChars, Bool.false_eq_true, false_iff]
    intro h
    exact absurd (List.eq_nil_of_prefix_nil h) (by simp)
  | p :: ps, c :: cs => by
    simp only [isPrefixOfChars, Bool.and_eq_true, beq_iff_eq, isPrefixOfChars_iff ps cs,
      List.cons_prefix_cons]

/-- `dropPrefixChars` succeeds exactly on prefix extensions. -/
theorem dropPrefixChars_eq_some : ∀ p l r : List Char,
    dropPrefixChars p l = some r ↔ l = p ++ r
  | [], l, r => by simp [dropPrefixChars, eq_comm]
  | _ :: _, [], r => by simp [dropPrefixChars]
  | p :: ps, c :: cs, r => by
    simp only [dropPrefixChars, List.cons_append]
    by_cases h : p = c
    · subst h
      rw [if_pos rfl, dropPrefixChars_eq_some ps cs r]
      simp
    · rw [if_neg h]
      simp only [List.cons.injEq]
      constructor
      · intro hx
        exact absurd hx (by simp)
      · intro ⟨h1, _⟩
        exact absurd h1.symm h

/-- Every element kept by `takeWhile` satisfies the predicate. -/
theorem takeWhile_all (p : Char → Bool) : ∀ l : List Char, ∀ c ∈ l.takeWhile p, p c = true
  | [], c => by simp
  | x :: xs, c => by
    by_cases h : p x
    · simp only [List.takeWhile_cons, h, if_true, List.mem_cons]
      rintro (rfl | hc)
      · exact h
      · exact takeWhile_all p xs c hc
    · simp [List.takeWhile_cons, h]

/-- `takeWhile` over a satisfied block stops exactly at the first failure. -/
theorem takeWhile_block (p : Char → Bool) : ∀ (a : List Char) (b : Char) (l : List Char),
    (∀ c ∈ a, p c = true) → p b = false → (a ++ b :: l).takeWhile p = a
  | [], b, l, _, hb => by simp [List.takeWhile_cons, hb]
  | x :: xs, b, l, ha, hb => by
    simp only [List.cons_append, List.takeWhile_cons, ha x (by simp), if_true,
      List.cons.injEq, true_and]
    exact takeWhile_block p xs b l (fun c hc => ha c (by simp [hc])) hb

/-- `dropWhile` over a satisfied block drops exactly the block. -/
theorem dropWhile_block (p : Char → Bool) : ∀ (a : List Char) (b : Char) (l : List Char),
    (∀ c ∈ a, p c = true) → p b = false → (a ++ b :: l).dropWhile p = b :: l
  | [], b, l, _, hb => by simp [List.dropWhile_cons, hb]
  | x :: xs, b, l, ha, hb => by
    simp only [List.cons_append, List.dropWhile_cons, ha x (by simp), if_true]
    exact dropWhile_block p xs b l (fun c hc => ha c (by simp [hc])) hb

/-- The HTML-comment matcher succeeds on a canonical marker. -/
theorem matchHtmlAt_canonical (w wm : List Char)
    (hw : ∀ c ∈ w, isWsChar c = true) (hne : wm ≠ [])
    (hwm : ∀ c ∈ wm, isB64Char c = true) :
    matchHtmlAt ("<!--".toList ++ (w ++ (gaasTag ++ (wm ++ " -->".toList)))) = some wm := by
  have h8 : wm.isEmpty = false := by
    cases wm with
    | nil => exact absurd rfl hne
    | cons a l => rfl
  have h1 : dropPrefixChars ("<!--".toList)
      ("<!--".toList ++ (w ++ (gaasTag ++ (wm ++ " -->".toList)))) =
      some (w ++ (gaasTag ++ (wm ++ " -->".toList))) :=
    (dropPrefixChars_eq_some _ _ _).mpr rfl
  have h2 : (w ++ (gaasTag ++ (wm ++ " -->".toList))).dropWhile isWsChar =
      gaasTag ++ (wm ++ " -->".toList) :=
    dropWhile_block isWsChar w 'G' ("AAS_WM:".toList ++ (wm ++ " -->".toList)) hw (by decide)
  have h3 : dropPrefixChars gaasTag (gaasTag ++ (wm ++ " -->".toList)) =
      some (wm ++ " -->".toList) :=
    (dropPrefixChars_eq_some _ _ _).mpr rfl
  have h4 : (wm ++ " -->".toList).takeWhile isB64Char = wm :=
    takeWhile_block isB64Char wm ' ' ("-->".toList) hwm (by decide)
  have h5 : (wm ++ " -->".toList).dropWhile isB64Char = ' ' :: "-->".toList :=
    dropWhile_block isB64Char wm ' ' ("-->".toList) hwm (by decide)
  have h6 : (' ' :: "-->".toList).dropWhile isWsChar = "-->".toList := by decide
  simp only [matchHtmlAt, h1, h2, h3, h4, h5, h6, h8, Bool.false_eq_true, if_false]
  rfl

/-- The bracket matcher succeeds on a canonical marker. -/
theorem matchBracketAt_canonical (wm : List Char) (hne : wm ≠ [])
    (hwm : ∀ c ∈ wm, isB64Char c = true) :
    matchBracketAt ("[GAAS_WM:".toList ++ (wm ++ "]".toList)) = some wm := by
  have h8 : wm.isEmpty = false := by
    cases wm with
    | nil => exact absurd rfl hne
    | cons a l => rfl
  have h1 : dropPrefixChars ("[GAAS_WM:".toList)
      ("[GAAS_WM:".toList ++ (wm ++ "]".toList)) = some (wm ++ "]".toList) :=
    (dropPrefixChars_eq_some _ _ _).mpr rfl
  have h4 : (wm ++ "]".toList).takeWhile isB64Char = wm :=
    takeWhile_block isB64Char wm ']' [] hwm (by decide)
  have h5 : (wm ++ "]".toList).dropWhile isB64Char = ']' :: [] :=
    dropWhile_block isB64Char wm ']' [] hwm (by decide)
  simp only [matchBracketAt, h1, h4, h5, h8, Bool.false_eq_true, if_false]
  rfl

/-- A successful HTML-comment match exposes the literal structure of the text:
an opening comment, a whitespace run, then the `GAAS_WM:` tag. -/
theorem matchHtmlAt_some (t cap : List Char) (h : matchHtmlAt t = some cap) :
    ∃ w r, (∀ c ∈ w, isWsChar c = true) ∧ t = "<!--".toList ++ (w ++ (gaasTag ++ r)) := by
  unfold matchHtmlAt at h
  rcases hd : dropPrefixChars ("<!--".toList) t with _ | l1
  · rw [hd] at h; exact absurd h (by simp)
  rw [hd] at h
  simp only [] at h
  rcases hg : dropPrefixChars gaasTag (l1.dropWhile isWsChar) with _ | l3
  · rw [hg] at h; exact absurd h (by simp)
  refine ⟨l1.takeWhile isWsChar, l3, takeWhile_all isWsChar l1, ?_⟩
  have ht : t = "<!--".toList ++ l1 := (dropPrefixChars_eq_some _ _ _).mp hd
  have hl1 : l1.dropWhile isWsChar = gaasTag ++ l3 := (dropPrefixChars_eq_some _ _ _).mp hg
  rw [ht, ← hl1, List.takeWhile_append_dropWhile]

/-- A successful bracket match exposes the literal marker head. -/
theorem matchBracketAt_some (t cap : List Char) (h : matchBracketAt t = some cap) :
    ∃ r, t = '[' :: (gaasTag ++ r) := by
  unfold matchBracketAt at h
  rcases hd : dropPrefixChars ("[GAAS_WM:".toList) t with _ | l1
  · rw [hd] at h; exact absurd h (by simp)
  exact ⟨l1, (dropPrefixChars_eq_some _ _ _).mp hd⟩

/-- A prefix of an append is contained in the left part or spans into the
right part. -/
theorem prefix_append_cases (p a y : List Char) (h : p <+: a ++ y) :
    (p.length ≤ a.length ∧ p <+: a) ∨
    (a.length < p.length ∧ a <+: p ∧ p.drop a.length <+: y) := by
  obtain ⟨t, ht⟩ := h
  by_cases hle : p.length ≤ a.length
  · left
    refine ⟨hle, ?_⟩
    have hp : p = (a ++ y).take p.length := by
      rw [← ht, List.take_left]
    rw [hp, List.take_append_of_le_length hle]
    exact List.take_prefix _ _
  · right
    have hlt : a.length < p.length := Nat.lt_of_not_le hle
    have ha : a = p.take a.length := by
      have : a = (p ++ t).take a.length := by
        rw [ht, List.take_append_of_le_length le_rfl, List.take_length]
      rwa [List.take_append_of_le_length (Nat.le_of_lt hlt)] at this
    refine ⟨hlt, by rw [ha]; exact List.take_prefix _ _, ?_⟩
    have hd := congrArg (List.drop a.length) ht
    rw [List.drop_left] at hd
    rw [List.drop_append_eq_append_drop, Nat.sub_eq_zero_of_le (Nat.le_of_lt hlt),
      List.drop_zero] at hd
    exact ⟨t, hd⟩

/-- A prefix of `(x ++ y).drop i` lives in `x`, lives in `y`, or straddles
the boundary. -/
theorem prefix_drop_append_cases (p x y : List Char) (i : Nat)
    (h : p <+: (x ++ y).drop i) :
    (i + p.length ≤ x.length ∧ p <+: x.drop i) ∨
    (x.length ≤ i ∧ p <+: y.drop (i - x.length)) ∨
    (i < x.length ∧ x.length < i + p.length ∧ x.drop i <+: p ∧
      p.drop (x.length - i) <+: y) := by
  rw [List.drop_append_eq_append_drop] at h
  by_cases hi : x.length ≤ i
  · right; left
    refine ⟨hi, ?_⟩
    rwa [List.drop_eq_nil_of_le hi, List.nil_append] at h
  · have hi' : i < x.length := Nat.lt_of_not_le hi
    rw [Nat.sub_eq_zero_of_le (Nat.le_of_lt hi'), List.drop_zero] at h
    rcases prefix_append_cases p (x.drop i) y h with ⟨hlen, hpre⟩ | ⟨hlen, hxp, hrest⟩
    · left
      rw [List.length_drop] at hlen
      exact ⟨by omega, hpre⟩
    · right; right
      rw [List.length_drop] at hlen hrest
      exact ⟨hi', by omega, hxp, hrest⟩

/-- A nonempty prefix of a cons starts with its head. -/
theorem prefix_head (p : List Char) (c : Char) (l : List Char)
    (h : p <+: c :: l) (hne : p ≠ []) : p.head? = some c := by
  cases p with
  | nil => exact absurd rfl hne
  | cons a q => rw [List.cons_prefix_cons] at h; rw [h.1]; rfl

/-- In `pre ++ wm ++ post` with `wm` base64, the tag `GAAS_WM:` occurs only at
the position `jS` fixed by the concrete `pre`/`post` pair. -/
theorem gaas_unique (pre post wm : List Char) (jS : Nat)
    (hwm : ∀ c ∈ wm, isB64Char c = true)
    (hpostlen : post.length < 8)
    (hpre : ∀ j, j + 8 ≤ pre.length → isPrefixOfChars gaasTag (pre.drop j) = true → j = jS)
    (hpre2 : ∀ L, 1 ≤ L → L < 8 → isPrefixOfChars (pre.drop (pre.length - L)) gaasTag = false)
    (hpost2 : ∀ L, 1 ≤ L → L < 8 → isPrefixOfChars (gaasTag.drop L) post = false)
    (j : Nat) (h : gaasTag <+: (pre ++ (wm ++ post)).drop j) : j = jS := by
  have hglen : gaasTag.length = 8 := rfl
  rcases prefix_drop_append_cases gaasTag pre (wm ++ post) j h with
    ⟨hlen, hp⟩ | ⟨hlen, hp⟩ | ⟨h1, h2, hxp, hrest⟩
  · exact hpre j (by omega) ((isPrefixOfChars_iff _ _).mpr hp)
  · rcases prefix_drop_append_cases gaasTag wm post (j - pre.length) hp with
      ⟨hlen2, hp2⟩ | ⟨hlen2, hp2⟩ | ⟨g1, g2, gxp, grest⟩
    · have hmem : (':' : Char) ∈ wm :=
        List.drop_subset _ wm (hp2.subset (by decide : (':' : Char) ∈ gaasTag))
      have := hwm ':' hmem
      exact absurd this (by decide)
    · have := hp2.length_le
      rw [hglen, List.length_drop] at this
      omega
    · have hb := (isPrefixOfChars_iff _ _).mpr grest
      have : isPrefixOfChars (gaasTag.drop (wm.length - (j - pre.length))) post = false :=
        hpost2 _ (by omega) (by omega)
      rw [this] at hb
      exact absurd hb (by simp)
  · have hb := (isPrefixOfChars_iff _ _).mpr hxp
    have hj : j = pre.length - (pre.length - j) := by omega
    rw [hj] at hb
    have : isPrefixOfChars (pre.drop (pre.length - (pre.length - j))) gaasTag = false := by
      have := hpre2 (pre.length - j) (by omega) (by omega)
      rwa [Nat.sub_sub_self (by omega : j ≤ pre.length)] at this ⊢
    rw [this] at hb
    exact absurd hb (by simp)

/-- The tag occurs exactly once in the HTML-comment suffix. -/
theorem gaas_unique_html (wm : List Char) (hwm : ∀ c ∈ wm, isB64Char c = true) :
    ∀ j, gaasTag <+: ("\n<!-- GAAS_WM:".toList ++ (wm ++ " -->".toList)).drop j → j = 6 :=
  gaas_unique _ _ wm 6 hwm (by decide)
    (by
      intro j hj hb
      have h6 : j ≤ 6 := by
        have : ("\n<!-- GAAS_WM:".toList).length = 14 := by decide
        omega
      interval_cases j <;> revert hb <;> decide)
    (by intro L h1 h2; interval_cases L <;> decide)
    (by intro L h1 h2; interval_cases L <;> decide)

/-- The tag occurs exactly once in the bracket suffix. -/
theorem gaas_unique_bracket (wm : List Char) (hwm : ∀ c ∈ wm, isB64Char c = true) :
    ∀ j, gaasTag <+: ("\n[GAAS_WM:".toList ++ (wm ++ "]".toList)).drop j → j = 2 :=
  gaas_unique _ _ wm 2 hwm (by decide)
    (by
      intro j hj hb
      have h6 : j ≤ 2 := by
        have : ("\n[GAAS_WM:".toList).length = 10 := by decide
        omega
      interval_cases j <;> revert hb <;> decide)
    (by intro L h1 h2; interval_cases L <;> decide)
    (by intro L h1 h2; interval_cases L <;> decide)

/-- If the HTML matcher fails at every position, the search fails. -/
theorem searchHtml_eq_none_of : ∀ t : List Char,
    (∀ i, matchHtmlAt (t.drop i) = none) → searchHtml t = none
  | [], _ => rfl
  | c :: rest, h => by
    have h0 : matchHtmlAt (c :: rest) = none := h 0
    simp only [searchHtml, h0]
    exact searchHtml_eq_none_of rest (fun i => h (i + 1))

/-- The HTML search skips a prefix on which the matcher always fails. -/
theorem searchHtml_append_of_none : ∀ u t : List Char,
    (∀ i, i < u.length → matchHtmlAt ((u ++ t).drop i) = none) →
    searchHtml (u ++ t) = searchHtml t
  | [], t, _ => rfl
  | c :: u', t, h => by
    have h0 : matchHtmlAt (c :: (u' ++ t)) = none := h 0 (by simp)
    show (match matchHtmlAt (c :: (u' ++ t)) with
      | some cap => some cap
      | none => searchHtml (u' ++ t)) = searchHtml t
    rw [h0]
    exact searchHtml_append_of_none u' t (fun i hi => h (i + 1) (by simpa using hi))

/-- The bracket search skips a prefix on which the matcher always fails. -/
theorem searchBracket_append_of_none : ∀ u t : List Char,
    (∀ i, i < u.length → matchBracketAt ((u ++ t).drop i) = none) →
    searchBracket (u ++ t) = searchBracket t
  | [], t, _ => rfl
  | c :: u', t, h => by
    have h0 : matchBracketAt (c :: (u' ++ t)) = none := h 0 (by simp)
    show (match matchBracketAt (c :: (u' ++ t)) with
      | some cap => some cap
      | none => searchBracket (u' ++ t)) = searchBracket t
    rw [h0]
    exact searchBracket_append_of_none u' t (fun i hi => h (i + 1) (by simpa using hi))

/-- A proper tail of the tag is never empty. -/
theorem gaasTag_drop_ne_nil (L : Nat) (h : L < 8) : gaasTag.drop L ≠ [] := by
  intro hnil
  have := congrArg List.length hnil
  rw [List.length_drop] at this
  have hg : gaasTag.length = 8 := rfl
  rw [hg] at this
  simp at this
  omega

/-- No proper tail of the tag starts with newline, `[`, or `<`. -/
theorem gaasTag_drop_head (L : Nat) (h : L < 8) :
    (gaasTag.drop L).head? ≠ some '\x0a' := by
  interval_cases L <;> decide

/-- Locate a tag occurrence in `body ++ S`: with a clean body and a unique
occurrence inside the newline-led suffix `S`, the position is forced. -/
theorem gaas_loc (body S : List Char) (jS : Nat)
    (hclean : ∀ j, ¬ gaasTag <+: body.drop j)
    (hS : ∀ j, gaasTag <+: S.drop j → j = jS)
    (hShead : S.head? = some '\x0a')
    (k : Nat) (h : gaasTag <+: (body ++ S).drop k) : k = body.length + jS := by
  have hg : gaasTag.length = 8 := rfl
  rcases prefix_drop_append_cases gaasTag body S k h with
    ⟨_, hp⟩ | ⟨hlen, hp⟩ | ⟨h1, h2, _, hrest⟩
  · exact absurd hp (hclean k)
  · have := hS _ hp
    omega
  · rw [hg] at h2
    have hL8 : body.length - k < 8 := by omega
    cases hScase : S with
    | nil => rw [hScase] at hShead; exact absurd hShead (by simp)
    | cons s0 stail =>
      rw [hScase] at hrest hShead
      have hh := prefix_head _ _ _ hrest (gaasTag_drop_ne_nil _ hL8)
      simp only [List.head?_cons, Option.some.injEq] at hShead
      rw [hShead] at hh
      exact absurd hh (gaasTag_drop_head _ hL8)

/-- The HTML matcher fails at every position at or before the end of a clean
body followed by the canonical HTML marker. -/
theorem matchHtmlAt_fail_html (body wm : List Char)
    (hclean : ∀ j, ¬ gaasTag <+: body.drop j)
    (hwm : ∀ c ∈ wm, isB64Char c = true)
    (i : Nat) (hi : i ≤ body.length) :
    matchHtmlAt
      ((body ++ ("\n<!-- GAAS_WM:".toList ++ (wm ++ " -->".toList))).drop i) = none := by
  set S := "\n<!-- GAAS_WM:".toList ++ (wm ++ " -->".toList) with hSdef
  cases hm : matchHtmlAt ((body ++ S).drop i) with
  | none => rfl
  | some cap =>
    exfalso
    obtain ⟨w, r, hw, hstruct⟩ := matchHtmlAt_some _ _ hm
    have hdrop : (body ++ S).drop (i + (4 + w.length)) = gaasTag ++ r := by
      rw [← List.drop_drop, hstruct, ← List.append_assoc]
      exact List.drop_left' (by rw [List.length_append]; rfl)
    have hocc : gaasTag <+: (body ++ S).drop (i + (4 + w.length)) := by
      rw [hdrop]; exact ⟨r, rfl⟩
    have hk := gaas_loc body S 6 hclean (gaas_unique_html wm hwm) rfl _ hocc
    have hwlen : 2 ≤ w.length := by omega
    have hval : (body ++ S)[body.length + 1]? = some '<' := by
      rw [List.getElem?_append_right (by omega)]
      have h1 : body.length + 1 - body.length = 1 := by omega
      rw [h1]
      rfl
    have hval2 : ((body ++ S).drop i)[w.length - 1]? = some '<' := by
      rw [List.getElem?_drop]
      have h2 : i + (w.length - 1) = body.length + 1 := by omega
      rw [h2]; exact hval
    rw [hstruct] at hval2
    by_cases hw4 : w.length - 1 < 4
    · rw [List.getElem?_append_left (show w.length - 1 < ("<!--".toList).length from hw4)]
        at hval2
      have hq1 : 1 ≤ w.length - 1 := by omega
      set q := w.length - 1 with hq
      have hq3 : q ≤ 3 := by omega
      interval_cases q <;> exact absurd hval2 (by decide)
    · rw [List.getElem?_append_right
        (show ("<!--".toList).length ≤ w.length - 1 by
          have h4 : ("<!--".toList).length = 4 := rfl
          omega)] at hval2
      have hidx : w.length - 1 - ("<!--".toList).length < w.length := by
        have h4 : ("<!--".toList).length = 4 := rfl
        omega
      rw [List.getElem?_append_left hidx] at hval2
      obtain ⟨hb, he⟩ := List.getElem?_eq_some.mp hval2
      have hmem : '<' ∈ w := he ▸ List.getElem_mem hb
      have := hw '<' hmem
      exact absurd this (by decide)

/-- The HTML matcher fails everywhere on a clean body followed by the
bracket marker. -/
theorem matchHtmlAt_fail_bracket (body wm : List Char)
    (hclean : ∀ j, ¬ gaasTag <+: body.drop j)
    (hwm : ∀ c ∈ wm, isB64Char c = true)
    (i : Nat) :
    matchHtmlAt
      ((body ++ ("\n[GAAS_WM:".toList ++ (wm ++ "]".toList))).drop i) = none := by
  set S := "\n[GAAS_WM:".toList ++ (wm ++ "]".toList) with hSdef
  cases hm : matchHtmlAt ((body ++ S).drop i) with
  | none => rfl
  | some cap =>
    exfalso
    obtain ⟨w, r, hw, hstruct⟩ := matchHtmlAt_some _ _ hm
    have hdrop : (body ++ S).drop (i + (4 + w.length)) = gaasTag ++ r := by
      rw [← List.drop_drop, hstruct, ← List.append_assoc]
      exact List.drop_left' (by rw [List.length_append]; rfl)
    have hocc : gaasTag <+: (body ++ S).drop (i + (4 + w.length)) := by
      rw [hdrop]; exact ⟨r, rfl⟩
    have hk := gaas_loc body S 2 hclean (gaas_unique_bracket wm hwm) rfl _ hocc
    have hval : (body ++ S)[body.length + 1]? = some '[' := by
      rw [List.getElem?_append_right (by omega)]
      have h1 : body.length + 1 - body.length = 1 := by omega
      rw [h1]
      rfl
    have hval2 : ((body ++ S).drop i)[w.length + 3]? = some '[' := by
      rw [List.getElem?_drop]
      have h2 : i + (w.length + 3) = body.length + 1 := by omega
      rw [h2]; exact hval
    rw [hstruct] at hval2
    by_cases hw0 : w.length = 0
    · rw [List.getElem?_append_left
        (show w.length + 3 < ("<!--".toList).length by
          have h4 : ("<!--".toList).length = 4 := rfl
          omega)] at hval2
      rw [hw0] at hval2
      exact absurd hval2 (by decide)
    · rw [List.getElem?_append_right
        (show ("<!--".toList).length ≤ w.length + 3 by
          have h4 : ("<!--".toList).length = 4 := rfl
          omega)] at hval2
      have hidx : w.length + 3 - ("<!--".toList).length < w.length := by
        have h4 : ("<!--".toList).length = 4 := rfl
        omega
      rw [List.getElem?_append_left hidx] at hval2
      obtain ⟨hb, he⟩ := List.getElem?_eq_some.mp hval2
      have hmem : '[' ∈ w := he ▸ List.getElem_mem hb
      have := hw '[' hmem
      exact absurd this (by decide)

/-- The bracket matcher fails at every position at or before the end of a
clean body followed by the bracket marker. -/
theorem matchBracketAt_fail_bracket (body wm : List Char)
    (hclean : ∀ j, ¬ gaasTag <+: body.drop j)
    (hwm : ∀ c ∈ wm, isB64Char c = true)
    (i : Nat) (hi : i ≤ body.length) :
    matchBracketAt
      ((body ++ ("\n[GAAS_WM:".toList ++ (wm ++ "]".toList))).drop i) = none := by
  set S := "\n[GAAS_WM:".toList ++ (wm ++ "]".toList) with hSdef
  cases hm : matchBracketAt ((body ++ S).drop i) with
  | none => rfl
  | some cap =>
    exfalso
    obtain ⟨r, hstruct⟩ := matchBracketAt_some _ _ hm
    have hdrop : (body ++ S).drop (i + 1) = gaasTag ++ r := by
      rw [← List.drop_drop, hstruct]
      rfl
    have hocc : gaasTag <+: (body ++ S).drop (i + 1) := by
      rw [hdrop]; exact ⟨r, rfl⟩
    have hk := gaas_loc body S 2 hclean (gaas_unique_bracket wm hwm) rfl _ hocc
    omega

/-- A head match short-circuits the HTML search. -/
theorem searchHtml_of_match_head (c : Char) (rest cap : List Char)
    (h : matchHtmlAt (c :: rest) = some cap) : searchHtml (c :: rest) = some cap := by
  simp only [searchHtml, h]

/-- A head match short-circuits the bracket search. -/
theorem searchBracket_of_match_head (c : Char) (rest cap : List Char)
    (h : matchBracketAt (c :: rest) = some cap) : searchBracket (c :: rest) = some cap := by
  simp only [searchBracket, h]

/-- Round trip for HTML bodies: extraction recovers the watermark injected
into a body that carries no prior `GAAS_WM:` marker. -/
theorem extract_inject_html (body wm ct : List Char)
    (hclean : ∀ j, ¬ gaasTag <+: body.drop j)
    (hne : wm ≠ []) (hwm : ∀ c ∈ wm, isB64Char c = true)
    (hct : isSubstrOfChars ("html".toList) (lowerChars ct) = true) :
    extract_watermark_from_text (inject_watermark_text body wm ct) = some wm := by
  have hre : body ++ ("\n<!-- GAAS_WM:".toList ++ (wm ++ " -->".toList)) =
      (body ++ ['\x0a']) ++ ("<!-- GAAS_WM:".toList ++ (wm ++ " -->".toList)) := by
    rw [List.append_assoc]
    rfl
  have hfails : ∀ i, i < (body ++ ['\x0a']).length →
      matchHtmlAt (((body ++ ['\x0a']) ++
        ("<!-- GAAS_WM:".toList ++ (wm ++ " -->".toList))).drop i) = none := by
    intro i hi
    rw [← hre]
    refine matchHtmlAt_fail_html body wm hclean hwm i ?_
    rw [List.length_append] at hi
    simpa using Nat.lt_succ_iff.mp (by simpa using hi)
  have hsearch : searchHtml
      (body ++ ("\n<!-- GAAS_WM:".toList ++ (wm ++ " -->".toList))) = some wm := by
    rw [hre, searchHtml_append_of_none _ _ hfails]
    exact searchHtml_of_match_head '<' _ wm
      (matchHtmlAt_canonical [' '] wm (by decide) hne hwm)
  have hinj : inject_watermark_text body wm ct =
      body ++ ("\n<!-- GAAS_WM:".toList ++ (wm ++ " -->".toList)) := by
    unfold inject_watermark_text
    rw [if_pos hct, List.append_assoc, List.append_assoc]
  rw [hinj]
  simp only [extract_watermark_from_text, hsearch]

/-- Round trip for plain-text bodies: the bracket marker is injected and the
bracket pattern recovers it, the HTML pattern finding nothing. -/
theorem extract_inject_plain (body wm ct : List Char)
    (hclean : ∀ j, ¬ gaasTag <+: body.drop j)
    (hne : wm ≠ []) (hwm : ∀ c ∈ wm, isB64Char c = true)
    (hct : isSubstrOfChars ("html".toList) (lowerChars ct) = false) :
    extract_watermark_from_text (inject_watermark_text body wm ct) = some wm := by
  have hre : body ++ ("\n[GAAS_WM:".toList ++ (wm ++ "]".toList)) =
      (body ++ ['\x0a']) ++ ("[GAAS_WM:".toList ++ (wm ++ "]".toList)) := by
    rw [List.append_assoc]
    rfl
  have hnone : searchHtml
      (body ++ ("\n[GAAS_WM:".toList ++ (wm ++ "]".toList))) = none :=
    searchHtml_eq_none_of _ (matchHtmlAt_fail_bracket body wm hclean hwm)
  have hfails : ∀ i, i < (body ++ ['\x0a']).length →
      matchBracketAt (((body ++ ['\x0a']) ++
        ("[GAAS_WM:".toList ++ (wm ++ "]".toList))).drop i) = none := by
    intro i hi
    rw [← hre]
    refine matchBracketAt_fail_bracket body wm hclean hwm i ?_
    rw [List.length_append] at hi
    simpa using Nat.lt_succ_iff.mp (by simpa using hi)
  have hbr : searchBracket
      (body ++ ("\n[GAAS_WM:".toList ++ (wm ++ "]".toList))) = some wm := by
    rw [hre, searchBracket_append_of_none _ _ hfails]
    exact searchBracket_of_match_head '[' _ wm (matchBracketAt_canonical wm hne hwm)
  have hinj : inject_watermark_text body wm ct =
      body ++ ("\n[GAAS_WM:".toList ++ (wm ++ "]".toList)) := by
    unfold inject_watermark_text
    rw [if_neg (by rw [hct]; exact Bool.false_ne_true), List.append_assoc, List.append_assoc]
  rw [hinj]
  simp only [extract_watermark_from_text, hnone, hbr]


/-- Alphabet characters land in the extraction character class. -/
theorem b64EncChar_isB64 : ∀ n, n < 64 → isB64Char (b64EncChar n) = true := by decide

/-- Encoding a nonempty byte list gives a nonempty character list. -/
theorem b64encode_ne_nil : ∀ bs : List Nat, bs ≠ [] → b64encode bs ≠ []
  | [], h => absurd rfl h
  | [_], _ => by simp [b64encode]
  | [_, _], _ => by simp [b64encode]
  | _ :: _ :: _ :: _, _ => by simp [b64encode]

/-- Every character of an encoded byte list lies in the extraction class. -/
theorem b64encode_isB64 : ∀ bs : List Nat, (∀ b ∈ bs, b < 256) →
    ∀ c ∈ b64encode bs, isB64Char c = true
  | [], _, c => by simp [b64encode]
  | [a], h, c => by
    have ha : a < 256 := h a (by simp)
    simp only [b64encode, List.mem_cons, List.not_mem_nil, or_false]
    rintro (rfl | rfl | rfl | rfl)
    · exact b64EncChar_isB64 _ (by omega)
    · exact b64EncChar_isB64 _ (by omega)
    · decide
    · decide
  | [a, b], h, c => by
    have ha : a < 256 := h a (by simp)
    have hb : b < 256 := h b (by simp)
    simp only [b64encode, List.mem_cons, List.not_mem_nil, or_false]
    rintro (rfl | rfl | rfl | rfl)
    · exact b64EncChar_isB64 _ (by omega)
    · exact b64EncChar_isB64 _ (by omega)
    · exact b64EncChar_isB64 _ (by omega)
    · decide
  | a :: b :: d :: rest, h, c => by
    have ha : a < 256 := h a (by simp)
    have hb : b < 256 := h b (by simp)
    have hd : d < 256 := h d (by simp)
    simp only [b64encode, List.mem_cons]
    rintro (rfl | rfl | rfl | rfl | hc)
    · exact b64EncChar_isB64 _ (by omega)
    · exact b64EncChar_isB64 _ (by omega)
    · exact b64EncChar_isB64 _ (by omega)
    · exact b64EncChar_isB64 _ (by omega)
    · exact b64encode_isB64 rest (fun x hx => h x (by simp [hx])) c hc

/-- The Boolean substring test agrees with prefix-of-a-tail. -/
theorem isSubstrOfChars_iff : ∀ p l : List Char,
    isSubstrOfChars p l = true ↔ ∃ j, p <+: l.drop j
  | p, [] => by
    simp only [isSubstrOfChars, List.isEmpty_iff, List.drop_nil]
    constructor
    · rintro rfl
      exact ⟨0, List.nil_prefix⟩
    · rintro ⟨j, hj⟩
      exact List.eq_nil_of_prefix_nil hj
  | p, c :: rest => by
    simp only [isSubstrOfChars, Bool.or_eq_true, isPrefixOfChars_iff,
      isSubstrOfChars_iff p rest]
    constructor
    · rintro (hp | ⟨j, hj⟩)
      · exact ⟨0, hp⟩
      · exact ⟨j + 1, hj⟩
    · rintro ⟨j, hj⟩
      cases j with
      | zero => exact Or.inl hj
      | succ j' => exact Or.inr ⟨j', hj⟩

/-- Generated watermarks are nonempty. -/
theorem generate_watermark_ne_nil (sid kid : Nat) (rid ts : List Nat) :
    generate_watermark sid kid rid ts ≠ [] :=
  b64encode_ne_nil _ (by simp)

/-- Generated watermarks use only extraction-class characters. -/
theorem generate_watermark_isB64 (sid kid : Nat) (rid ts : List Nat)
    (hr : ∀ b ∈ rid, b < 256) (ht : ∀ b ∈ ts, b < 256) :
    ∀ c ∈ generate_watermark sid kid rid ts, isB64Char c = true := by
  refine b64encode_isB64 _ ?_
  intro b hb
  simp only [List.mem_append, List.mem_cons] at hb
  rcases hb with ((h | rfl | h) | rfl | h) | rfl | h
  · have := natToDecBytes_digits sid b h; omega
  · omega
  · have := natToDecBytes_digits kid b h; omega
  · omega
  · exact hr b h
  · omega
  · exact ht b h

/-- C9: watermark round-trips.  Decoding inverts encoding for every tuple with
pipe-free byte-string fields; extraction recovers the injected watermark from
every JSON object and every JSON array (the array being wrapped as
`{"data": ..., "_gaas_watermark": ...}`, shown concretely for `[1,2,3]`), and
from every HTML or plain-text body provided the body does not already contain
a `GAAS_WM:` marker — the amendment the counterexample shows necessary. -/
theorem C9_watermark_roundtrip
    (sid kid : Nat) (rid ts : List Nat)
    (hr1 : ∀ b ∈ rid, b < 256) (hr2 : ∀ b ∈ rid, b ≠ 124)
    (ht1 : ∀ b ∈ ts, b < 256) (ht2 : ∀ b ∈ ts, b ≠ 124)
    (fields : List (List Char × Json)) (xs : List Json)
    (body ct : List Char)
    (hclean : isSubstrOfChars gaasTag body = false)
    (wm : List Char) (hwm : wm = generate_watermark sid kid rid ts) :
    decode_watermark wm = some ⟨sid, kid, rid, ts⟩ ∧
    extract_watermark_from_json (inject_watermark_json (.obj fields) wm) =
      some (.str wm) ∧
    extract_watermark_from_json (inject_watermark_json (.arr xs) wm) =
      some (.str wm) ∧
    inject_watermark_json (.arr [.num 1, .num 2, .num 3]) wm =
      .obj [("data".toList, .arr [.num 1, .num 2, .num 3]), (wmKey, .str wm)] ∧
    extract_watermark_from_text (inject_watermark_text body wm ct) = some wm := by
  subst hwm
  refine ⟨decode_generate_watermark sid kid rid ts hr1 hr2 ht1 ht2,
    extract_inject_obj fields _, extract_inject_arr xs _, rfl, ?_⟩
  have hne := generate_watermark_ne_nil sid kid rid ts
  have hb64 := generate_watermark_isB64 sid kid rid ts hr1 ht1
  have hcl : ∀ j, ¬ gaasTag <+: body.drop j := by
    intro j hj
    have hx : isSubstrOfChars gaasTag body = true := (isSubstrOfChars_iff _ _).mpr ⟨j, hj⟩
    rw [hclean] at hx
    exact absurd hx (by simp)
  cases hct : isSubstrOfChars ("html".toList) (lowerChars ct) with
  | true => exact extract_inject_html body _ ct hcl hne hb64 hct
  | false => exact extract_inject_plain body _ ct hcl hne hb64 hct

/-- C9 counterexample: a plain-text body that already carries an HTML
`GAAS_WM:` marker wins the leftmost regex search, so extraction returns the
pre-existing marker, not the injected watermark. -/
theorem C9_counterexample :
    extract_watermark_from_text
      (inject_watermark_text ("<!-- GAAS_WM:QQ== -->".toList)
        (generate_watermark 7 9 [114] [116]) ("text/plain".toList)) =
      some ("QQ==".toList) ∧
    ("QQ==".toList : List Char) ≠ generate_watermark 7 9 [114] [116] := by
  have h7 : natToDecBytes 7 = [55] := by
    unfold natToDecBytes
    rw [if_neg (by norm_num), Nat.digits_def' (by norm_num : (1:Nat) < 10) (by norm_num)]
    norm_num
  have h9 : natToDecBytes 9 = [57] := by
    unfold natToDecBytes
    rw [if_neg (by norm_num), Nat.digits_def' (by norm_num : (1:Nat) < 10) (by norm_num)]
    norm_num
  have hwm : generate_watermark 7 9 [114] [116] =
      b64encode [55, 124, 57, 124, 114, 124, 116] := by
    unfold generate_watermark
    rw [h7, h9]
    rfl
  rw [hwm]
  exact ⟨by decide, by decide⟩

/-- Witness: C9 at the tuple (3, 5, "r", "q"), object `{"a": 1}`, array
`[2]`, and body `hello` of content type `text/html`. -/
theorem C9_watermark_roundtrip_witness :
    decode_watermark (generate_watermark 3 5 [114] [113]) =
      some ⟨3, 5, [114], [113]⟩ ∧
    extract_watermark_from_json
      (inject_watermark_json (.obj [("a".toList, .num 1)])
        (generate_watermark 3 5 [114] [113])) =
      some (.str (generate_watermark 3 5 [114] [113])) ∧
    extract_watermark_from_json
      (inject_watermark_json (.arr [.num 2])
        (generate_watermark 3 5 [114] [113])) =
      some (.str (generate_watermark 3 5 [114] [113])) ∧
    inject_watermark_json (.arr [.num 1, .num 2, .num 3])
        (generate_watermark 3 5 [114] [113]) =
      .obj [("data".toList, .arr [.num 1, .num 2, .num 3]),
        (wmKey, .str (generate_watermark 3 5 [114] [113]))] ∧
    extract_watermark_from_text
      (inject_watermark_text ("hello".toList) (generate_watermark 3 5 [114] [113])
        ("text/html".toList)) =
      some (generate_watermark 3 5 [114] [113]) :=
  C9_watermark_roundtrip 3 5 [114] [113] (by decide) (by decide) (by decide) (by decide)
    [("a".toList, .num 1)] [.num 2] ("hello".toList) ("text/html".toList) (by decide) _ rfl
